import Mathlib

/-!
# USB gamepad report decoder (`uspi/lib/usbgamepad.c`)

A shallow embedding of the bit extractor (`BitGetUnsigned`, `BitGetSigned`) and of
the HID report descriptor walk (`USBGamePadDeviceDecodeReport`), followed by the
properties established about them.

Conventions of the embedding.

* A C `u32` is a natural number below `2^32`; every C operation that can leave that
  range is followed by an explicit reduction modulo `2^32`.  A C `s32` is kept as its
  two's-complement bit pattern (again a natural number below `2^32`) and is turned
  into an `Int` by `toS32` where a signed reading is needed.
* A left shift `x << n` on a 32-bit operand is `(x * 2^n) % 2^32`.  For `n >= 32` the
  C standard leaves the result undefined; the embedding takes all bits as shifted out
  (result `0`), as the register shift of the ARM target of this driver does for the
  amounts 32 to 255.
* The descriptor is a list of bytes whose length is `m_usReportDescriptorLength`.  An
  item whose announced payload runs past the end of the list makes the C cursor read
  past the descriptor; the walk then ends with `Exit.truncated`.
* A byte buffer is a list of naturals; byte `i` is `buf[i] % 256`, and `0` past the
  end of the list (the C code performs no bounds check).
-/

namespace UsbGamePad

/-! ## Machine arithmetic -/

/-- Reduction of a natural number to the range of a C `u32`. -/
def wrap32 (n : Nat) : Nat := n % 4294967296

/-- The C `u32` subtraction `a - b`. -/
def sub32 (a b : Nat) : Nat := (a % 4294967296 + (4294967296 - b % 4294967296)) % 4294967296

/-- The C shift `x << n` on a 32-bit operand: the product `x * 2^n` reduced modulo
`2^32`, which is `0` as soon as `n >= 32`. -/
def shl32 (x n : Nat) : Nat := if n < 32 then (x * 2 ^ n) % 4294967296 else 0

/-- Conversion of a 32-bit pattern to the signed integer it denotes (`s32`). -/
def toS32 (n : Nat) : Int :=
  if n % 4294967296 < 2147483648 then ((n % 4294967296 : Nat) : Int)
  else ((n % 4294967296 : Nat) : Int) - 4294967296

/-- Conversion `(u8) n`. -/
def toU8 (n : Nat) : Nat := n % 256

/-- A report buffer or descriptor: a sequence of bytes. -/
abbrev Buffer := List Nat

/-- The byte `bitBuffer[i]`. -/
def readByte (buf : Buffer) (i : Nat) : Nat := buf.getD i 0 % 256

/-! ## Bit extractor -/

/-- Loop variables of `BitGetUnsigned` that change between iterations. -/
structure BitAcc where
  j : Nat
  result : Nat
deriving DecidableEq, Repr

/-- One iteration of the `for` loop of `BitGetUnsigned`, for byte index `i`. -/
def bitGetBody (buf : Buffer) (offset length i : Nat) (acc : BitAcc) : BitAcc :=
  if offset / 8 = sub32 (wrap32 (offset + length)) 1 / 8 then
    let mask := toU8 (sub32 (shl32 1 (wrap32 (offset % 8 + length))) (shl32 1 (offset % 8)))
    { acc with result := (readByte buf i &&& mask) >>> (offset % 8) }
  else if i = offset / 8 then
    let mask := toU8 (sub32 256 (shl32 1 (offset % 8)))
    let j := wrap32 (acc.j + (8 - offset % 8))
    { j := j, result := shl32 ((readByte buf i &&& mask) >>> (offset % 8)) (sub32 length j) }
  else if i = sub32 (wrap32 (offset + length)) 1 / 8 then
    let mask := toU8 (sub32 (shl32 1 (wrap32 (offset % 8 + length))) 1)
    { acc with result := acc.result ||| (readByte buf i &&& mask) }
  else
    let j := wrap32 (acc.j + 8)
    { j := j, result := acc.result ||| shl32 (readByte buf i) (sub32 length j) }

/-- The `for` loop of `BitGetUnsigned`: `n` iterations starting at byte index `i`. -/
def bitGetLoop (buf : Buffer) (offset length : Nat) : Nat → Nat → BitAcc → BitAcc
  | 0, _, acc => acc
  | n + 1, i, acc => bitGetLoop buf offset length n (i + 1) (bitGetBody buf offset length i acc)

/-- `BitGetUnsigned (buffer, offset, length)`.  The loop runs for `i` from `offset / 8`
while `i < (offset + length + 7) / 8`. -/
def BitGetUnsigned (buf : Buffer) (offset length : Nat) : Nat :=
  (bitGetLoop buf offset length (wrap32 (offset + length + 7) / 8 - offset / 8) (offset / 8)
    { j := 0, result := 0 }).result

/-- `BitGetSigned (buffer, offset, length)`, the `s32` it returns. -/
def BitGetSigned (buf : Buffer) (offset length : Nat) : Int :=
  let result := BitGetUnsigned buf offset length
  toS32 (if result &&& shl32 1 (sub32 length 1) ≠ 0
    then result ||| sub32 4294967295 (sub32 (shl32 1 length) 1)
    else result)

/-! ## Spec-side reading of a bit field -/

/-- Buffer bit `n` as the specification counts it: bit `n % 8`, from the least
significant bit, of byte `n / 8`. -/
def bufferBit (buf : Buffer) (n : Nat) : Bool := (readByte buf (n / 8)).testBit (n % 8)

/-- The buffer `buf` with buffer bit `n` set to `b` (spec-side bit insertion). -/
def setBufferBit (buf : Buffer) (n : Nat) (b : Bool) : Buffer :=
  buf.set (n / 8)
    (if b then readByte buf (n / 8) ||| 2 ^ (n % 8)
     else readByte buf (n / 8) &&& (255 ^^^ 2 ^ (n % 8)))

/-- The buffer `buf` with the low `L` bits of `v` written into buffer bits
`offset .. offset + L - 1`, bit `k` of `v` going to buffer bit `offset + k`
(spec-side re-insertion of a field). -/
def writeBits (buf : Buffer) (offset v : Nat) : Nat → Buffer
  | 0 => buf
  | L + 1 => setBufferBit (writeBits buf offset v L) (offset + L) (v.testBit L)

/-! ## Report descriptor items and decoder working state -/

def HID_USAGE_PAGE : Nat := 0x04
def HID_USAGE : Nat := 0x08
def HID_REPORT_COUNT : Nat := 0x94
def HID_REPORT_SIZE : Nat := 0x74
def HID_LOGICAL_MIN : Nat := 0x14
def HID_LOGICAL_MAX : Nat := 0x24
def HID_PHYSICAL_MIN : Nat := 0x34
def HID_PHYSICAL_MAX : Nat := 0x44
def HID_INPUT : Nat := 0x80
def HID_REPORT_ID : Nat := 0x84
def HID_OUTPUT : Nat := 0x90
def HID_USAGE_PAGE_BUTTONS : Nat := 0x09
def HID_USAGE_JOYSTICK : Nat := 0x04
def HID_USAGE_GAMEPAD : Nat := 0x05
def HID_USAGE_X : Nat := 0x30
def HID_USAGE_Y : Nat := 0x31
def HID_USAGE_Z : Nat := 0x32
def HID_USAGE_RX : Nat := 0x33
def HID_USAGE_RY : Nat := 0x34
def HID_USAGE_RZ : Nat := 0x35

/-- Modelled from the spec: `MAX_AXIS` is defined in the header `uspi.h`, which is not
among the sources; the specification gives the capacity of the axis-slot map as six,
the number of initialisers of `map` in the source. -/
def MAX_AXIS : Nat := 6

/-- Modelled from the spec: the axis-presence flag constants `FLAG_X` .. `FLAG_RZ` are
defined in the header `uspi.h`, which is not among the sources.  Their values are
parameters of the embedding. -/
structure AxisFlags where
  FLAG_X : Nat
  FLAG_Y : Nat
  FLAG_Z : Nat
  FLAG_RX : Nat
  FLAG_RY : Nat
  FLAG_RZ : Nat
deriving DecidableEq, Repr

/-- Modelled from the spec: the GamePad state record (`m_State`) is declared in the
header `uspi.h`, which is not among the sources.  The fields the decoder writes are
kept: six signed axis values, the shared logical range, the presence flags, the
button count and the button mask. -/
structure TGamePadState where
  x : Int
  y : Int
  z : Int
  rx : Int
  ry : Int
  rz : Int
  minimum : Int
  maximum : Int
  flags : Nat
  nbuttons : Nat
  buttons : Nat
deriving DecidableEq, Repr

/-- The anonymous enumeration `None, GamePad, GamePadButton, GamePadAxis`. -/
inductive DecodeState where
  | None
  | GamePad
  | GamePadButton
  | GamePadAxis
deriving DecidableEq, Repr

/-- The local variables of `USBGamePadDeviceDecodeReport` that live across loop
iterations.  `max`, `min` and the entries of `map` are `s32` bit patterns. -/
structure Walk where
  offset : Nat
  size : Nat
  count : Nat
  index : Nat
  map : List Nat
  max : Nat
  min : Nat
  state : DecodeState
deriving DecidableEq, Repr

/-- The initial values of the locals: `map` holds six entries `-1`. -/
def initWalk : Walk :=
  { offset := 0, size := 0, count := 0, index := 0,
    map := [4294967295, 4294967295, 4294967295, 4294967295, 4294967295, 4294967295],
    max := 0, min := 0, state := DecodeState.None }

/-- Reading one descriptor byte through the `s8 *` cursor: the byte sign-extended to
32 bits. -/
def sext8 (b : Nat) : Nat := if b % 256 < 128 then b % 256 else b % 256 + 4294967040

/-- Outcome of processing one item. -/
inductive Step where
  | next (w : Walk) (s : TGamePadState)
  | abort
  | overflow
deriving DecidableEq, Repr

/-- The six `case` arms of `switch (map[i])`: store `value` in the axis that `usage`
names and set its presence flag; any other entry stores nothing. -/
def storeAxis (F : AxisFlags) (usage : Nat) (value : Int) (s : TGamePadState) : TGamePadState :=
  if usage = HID_USAGE_X then { s with x := value, flags := s.flags ||| F.FLAG_X }
  else if usage = HID_USAGE_Y then { s with y := value, flags := s.flags ||| F.FLAG_Y }
  else if usage = HID_USAGE_Z then { s with z := value, flags := s.flags ||| F.FLAG_Z }
  else if usage = HID_USAGE_RX then { s with rx := value, flags := s.flags ||| F.FLAG_RX }
  else if usage = HID_USAGE_RY then { s with ry := value, flags := s.flags ||| F.FLAG_RY }
  else if usage = HID_USAGE_RZ then { s with rz := value, flags := s.flags ||| F.FLAG_RZ }
  else s

/-- The expression `(min < 0) ? BitGetSigned (..) : BitGetUnsigned (..)` assigned to
`int value`, for loop index `i`. -/
def axisValue (buf : Buffer) (w : Walk) (i : Nat) : Int :=
  if 2147483648 ≤ w.min
  then BitGetSigned buf (wrap32 (w.offset + wrap32 (i * w.size))) w.size
  else toS32 (BitGetUnsigned buf (wrap32 (w.offset + wrap32 (i * w.size))) w.size)

/-- The loop `for (int i = 0; i < count && i < MAX_AXIS; i++)`: `n` iterations from
index `i`. -/
def axisLoop (F : AxisFlags) (buf : Buffer) (w : Walk) : Nat → Nat → TGamePadState → TGamePadState
  | 0, _, s => s
  | n + 1, i, s =>
    axisLoop F buf w n (i + 1) (storeAxis F (w.map.getD i 4294967295) (axisValue buf w i) s)

/-- The body of `case HID_INPUT`, before the offset is advanced. -/
def inputItem (F : AxisFlags) (buf : Buffer) (arg : Nat) (w : Walk) (s : TGamePadState) :
    Walk × TGamePadState :=
  if arg = 2 then
    if w.state = DecodeState.GamePadAxis then
      ({ w with state := DecodeState.GamePad },
       axisLoop F buf w (min w.count MAX_AXIS) 0
         { s with minimum := toS32 w.min, maximum := toS32 w.max })
    else if w.state = DecodeState.GamePadButton then
      ({ w with state := DecodeState.GamePad },
       { s with nbuttons := w.count,
                buttons := BitGetUnsigned buf w.offset (wrap32 (w.size * w.count)) })
    else (w, s)
  else (w, s)

/-- The statement `switch (item & 0xFC)` of the loop body, `tag` being `item & 0xFC`.
A write `map[index++]` with `index >= MAX_AXIS` lands outside the array: the step is
then `Step.overflow`. -/
def dispatch (F : AxisFlags) (buf : Buffer) (tag arg : Nat) (w : Walk) (s : TGamePadState) : Step :=
  if tag = HID_USAGE_PAGE then
    if arg = HID_USAGE_PAGE_BUTTONS ∧ w.state = DecodeState.GamePad
    then Step.next { w with state := DecodeState.GamePadButton } s
    else Step.next w s
  else if tag = HID_USAGE then
    if arg = HID_USAGE_JOYSTICK ∨ arg = HID_USAGE_GAMEPAD then
      Step.next { w with state := DecodeState.GamePad } s
    else if arg = HID_USAGE_X ∨ arg = HID_USAGE_Y ∨ arg = HID_USAGE_Z ∨
        arg = HID_USAGE_RX ∨ arg = HID_USAGE_RY ∨ arg = HID_USAGE_RZ then
      if w.index < MAX_AXIS then
        Step.next { w with map := w.map.set w.index arg, index := w.index + 1,
                           state := if w.state = DecodeState.GamePad
                                    then DecodeState.GamePadAxis else w.state } s
      else Step.overflow
    else Step.next w s
  else if tag = HID_LOGICAL_MIN ∨ tag = HID_PHYSICAL_MIN then Step.next { w with min := arg } s
  else if tag = HID_LOGICAL_MAX ∨ tag = HID_PHYSICAL_MAX then Step.next { w with max := arg } s
  else if tag = HID_REPORT_SIZE then Step.next { w with size := arg } s
  else if tag = HID_REPORT_COUNT then Step.next { w with count := arg } s
  else if tag = HID_INPUT then
    let r := inputItem F buf arg w s
    Step.next { r.1 with offset := wrap32 (r.1.offset + wrap32 (r.1.count * r.1.size)) } r.2
  else Step.next w s

/-- The loop body after the argument has been fetched: the `HID_REPORT_ID` test, which
leaves the loop (`Step.abort`) when the first buffer byte differs from `arg`, and then
the `switch` on the item tag. -/
def processItem (F : AxisFlags) (buf : Buffer) (item arg : Nat) (w : Walk) (s : TGamePadState) :
    Step :=
  if item &&& 0xFC = HID_REPORT_ID then
    if BitGetUnsigned buf 0 8 ≠ arg then Step.abort
    else dispatch F buf (item &&& 0xFC) arg { w with offset := wrap32 (w.offset + 8) } s
  else dispatch F buf (item &&& 0xFC) arg w s

/-- How the walk over the descriptor ended: the descriptor was consumed (`finished`),
the loop was left at a mismatching `REPORT_ID` item (`aborted`), an item announced
more payload bytes than the descriptor holds, so that the cursor would run past its
end (`truncated`), or a usage was written past the end of `map` (`overflow`). -/
inductive Exit where
  | finished
  | aborted
  | truncated
  | overflow
deriving DecidableEq, Repr

/-- Result of a walk: the way it ended, the locals and the GamePad state at that
point. -/
structure Outcome where
  exit : Exit
  walk : Walk
  st : TGamePadState
deriving DecidableEq, Repr

/-- Continuation of the loop after one item: `k` is the rest of the walk. -/
def stepThen (F : AxisFlags) (buf : Buffer) (item arg : Nat) (w : Walk) (s : TGamePadState)
    (k : Walk → TGamePadState → Outcome) : Outcome :=
  match processItem F buf item arg w s with
  | Step.next w1 s1 => k w1 s1
  | Step.abort => { exit := Exit.aborted, walk := w, st := s }
  | Step.overflow => { exit := Exit.overflow, walk := w, st := s }

/-- The `while (wReportDescriptorLength > 0)` loop over the descriptor bytes that remain.
The prefix byte `item` selects, by `item & 0x03`, a payload of 0, 1, 2 or 4 bytes, read
through the `s8 *` cursor. -/
def decodeLoop (F : AxisFlags) (buf : Buffer) : List Nat → Walk → TGamePadState → Outcome
  | [], w, s => { exit := Exit.finished, walk := w, st := s }
  | item :: rest, w, s =>
    if item &&& 3 = 0 then
      stepThen F buf item 0 w s (decodeLoop F buf rest)
    else if item &&& 3 = 1 then
      match rest with
      | b0 :: r => stepThen F buf item (sext8 b0) w s (decodeLoop F buf r)
      | _ => { exit := Exit.truncated, walk := w, st := s }
    else if item &&& 3 = 2 then
      match rest with
      | b0 :: b1 :: r =>
        stepThen F buf item ((sext8 b0 &&& 0xFF) ||| shl32 (sext8 b1) 8) w s (decodeLoop F buf r)
      | _ => { exit := Exit.truncated, walk := w, st := s }
    else
      match rest with
      | b0 :: b1 :: b2 :: b3 :: r =>
        stepThen F buf item
          (((sext8 b0 ||| shl32 (sext8 b1) 8) ||| shl32 (sext8 b2) 16) ||| shl32 (sext8 b3) 24)
          w s (decodeLoop F buf r)
      | _ => { exit := Exit.truncated, walk := w, st := s }

/-- `USBGamePadDeviceDecodeReport`: the walk over the whole report descriptor `desc`
with report buffer `buf`, from GamePad state `s`. -/
def USBGamePadDeviceDecodeReport (F : AxisFlags) (desc : List Nat) (buf : Buffer)
    (s : TGamePadState) : Outcome :=
  decodeLoop F buf desc initWalk s

/-- The statement `switch (item & 0x03)` on its own: the argument of the item with
prefix byte `item` and the descriptor bytes after its payload, or `none` when the
payload runs past the end of the descriptor. -/
def fetchArg (item : Nat) (rest : List Nat) : Option (Nat × List Nat) :=
  if item &&& 3 = 0 then some (0, rest)
  else if item &&& 3 = 1 then
    match rest with
    | b0 :: r => some (sext8 b0, r)
    | _ => none
  else if item &&& 3 = 2 then
    match rest with
    | b0 :: b1 :: r => some ((sext8 b0 &&& 0xFF) ||| shl32 (sext8 b1) 8, r)
    | _ => none
  else
    match rest with
    | b0 :: b1 :: b2 :: b3 :: r =>
      some ((((sext8 b0 ||| shl32 (sext8 b1) 8) ||| shl32 (sext8 b2) 16) ||| shl32 (sext8 b3) 24), r)
    | _ => none

/-- The tags `item & 0xFC` of the items of a descriptor, in the order in which the
loop meets them (an item whose payload is cut short ends the list). -/
def itemTags : List Nat → List Nat
  | [] => []
  | item :: rest =>
    if item &&& 3 = 0 then (item &&& 0xFC) :: itemTags rest
    else if item &&& 3 = 1 then
      match rest with
      | _ :: r => (item &&& 0xFC) :: itemTags r
      | _ => []
    else if item &&& 3 = 2 then
      match rest with
      | _ :: _ :: r => (item &&& 0xFC) :: itemTags r
      | _ => []
    else
      match rest with
      | _ :: _ :: _ :: _ :: r => (item &&& 0xFC) :: itemTags r
      | _ => []

/-- The axis value of a GamePad state that the usage `u` names (0 for any other
usage). -/
def axisOf (s : TGamePadState) (u : Nat) : Int :=
  if u = HID_USAGE_X then s.x
  else if u = HID_USAGE_Y then s.y
  else if u = HID_USAGE_Z then s.z
  else if u = HID_USAGE_RX then s.rx
  else if u = HID_USAGE_RY then s.ry
  else if u = HID_USAGE_RZ then s.rz
  else 0

/-- The presence flag of the axis that the usage `u` names (0 for any other usage). -/
def flagOf (F : AxisFlags) (u : Nat) : Nat :=
  if u = HID_USAGE_X then F.FLAG_X
  else if u = HID_USAGE_Y then F.FLAG_Y
  else if u = HID_USAGE_Z then F.FLAG_Z
  else if u = HID_USAGE_RX then F.FLAG_RX
  else if u = HID_USAGE_RY then F.FLAG_RY
  else if u = HID_USAGE_RZ then F.FLAG_RZ
  else 0

/-- The six positional-axis usages X, Y, Z, Rx, Ry, Rz. -/
def isAxisUsage (u : Nat) : Prop :=
  u = HID_USAGE_X ∨ u = HID_USAGE_Y ∨ u = HID_USAGE_Z ∨
    u = HID_USAGE_RX ∨ u = HID_USAGE_RY ∨ u = HID_USAGE_RZ

instance (u : Nat) : Decidable (isAxisUsage u) := by
  unfold isAxisUsage; infer_instance

/-- An instance of the presence-flag constants, one bit per axis, for evaluating the
decoder on concrete reports. -/
def flagBits : AxisFlags :=
  { FLAG_X := 1, FLAG_Y := 2, FLAG_Z := 4, FLAG_RX := 8, FLAG_RY := 16, FLAG_RZ := 32 }

/-- The GamePad state with every decoded field zero, as the constructor
`USBGamePadDevice` leaves the axes, the range and the buttons. -/
def zeroState : TGamePadState :=
  { x := 0, y := 0, z := 0, rx := 0, ry := 0, rz := 0, minimum := 0, maximum := 0,
    flags := 0, nbuttons := 0, buttons := 0 }

/-- A descriptor with one Joystick collection: X axis and Y axis, each an 8-bit field
with its own `REPORT_COUNT 1` and `INPUT` item, logical range -127..127, then eight
1-bit buttons; no `REPORT_ID` item. -/
def joystickXYButtons : List Nat :=
  [0x05, 0x01,        -- USAGE_PAGE (Generic Desktop)
   0x09, 0x04,        -- USAGE (Joystick)
   0xA1, 0x01,        -- COLLECTION (Application)
   0x15, 0x81,        -- LOGICAL_MINIMUM (-127)
   0x25, 0x7F,        -- LOGICAL_MAXIMUM (127)
   0x75, 0x08,        -- REPORT_SIZE (8)
   0x95, 0x01,        -- REPORT_COUNT (1)
   0x09, 0x30,        -- USAGE (X)
   0x81, 0x02,        -- INPUT (Data,Var,Abs)
   0x09, 0x31,        -- USAGE (Y)
   0x81, 0x02,        -- INPUT (Data,Var,Abs)
   0x05, 0x09,        -- USAGE_PAGE (Buttons)
   0x19, 0x01,        -- USAGE_MINIMUM (1)
   0x29, 0x08,        -- USAGE_MAXIMUM (8)
   0x15, 0x00,        -- LOGICAL_MINIMUM (0)
   0x25, 0x01,        -- LOGICAL_MAXIMUM (1)
   0x75, 0x01,        -- REPORT_SIZE (1)
   0x95, 0x08,        -- REPORT_COUNT (8)
   0x81, 0x02,        -- INPUT (Data,Var,Abs)
   0xC0]              -- END_COLLECTION

/-- The same collection with the X and Y usages declared together and read by one
`INPUT` item with `REPORT_COUNT 2`. -/
def joystickXYGroupButtons : List Nat :=
  [0x05, 0x01, 0x09, 0x04, 0xA1, 0x01, 0x15, 0x81, 0x25, 0x7F,
   0x75, 0x08,        -- REPORT_SIZE (8)
   0x95, 0x02,        -- REPORT_COUNT (2)
   0x09, 0x30,        -- USAGE (X)
   0x09, 0x31,        -- USAGE (Y)
   0x81, 0x02,        -- INPUT (Data,Var,Abs)
   0x05, 0x09, 0x19, 0x01, 0x29, 0x08, 0x15, 0x00, 0x25, 0x01,
   0x75, 0x01, 0x95, 0x08, 0x81, 0x02, 0xC0]

/-- A descriptor whose only report carries the id `0x80`: `REPORT_ID (0x80)`, then an
X axis of 8 bits. -/
def reportId128 : List Nat :=
  [0x05, 0x01, 0x09, 0x04, 0xA1, 0x01,
   0x85, 0x80,        -- REPORT_ID (0x80)
   0x09, 0x30,        -- USAGE (X)
   0x15, 0x00,        -- LOGICAL_MINIMUM (0)
   0x25, 0x7F,        -- LOGICAL_MAXIMUM (127)
   0x75, 0x08,        -- REPORT_SIZE (8)
   0x95, 0x01,        -- REPORT_COUNT (1)
   0x81, 0x02,        -- INPUT (Data,Var,Abs)
   0xC0]

/-- The descriptor `reportId128` with the id `0x80` carried in a two-byte payload. -/
def reportId128Wide : List Nat :=
  [0x05, 0x01, 0x09, 0x04, 0xA1, 0x01,
   0x86, 0x80, 0x00,  -- REPORT_ID (0x0080)
   0x09, 0x30, 0x15, 0x00, 0x25, 0x7F, 0x75, 0x08, 0x95, 0x01, 0x81, 0x02, 0xC0]

/-- A descriptor with two `REPORT_ID` branches: report 1 carries the X axis, report 2
the Y axis, each an 8-bit field after the id byte. -/
def twoReportIds : List Nat :=
  [0x05, 0x01, 0x09, 0x04, 0xA1, 0x01,
   0x15, 0x00, 0x25, 0x7F, 0x75, 0x08, 0x95, 0x01,
   0x85, 0x01,        -- REPORT_ID (1)
   0x09, 0x30,        -- USAGE (X)
   0x81, 0x02,        -- INPUT (Data,Var,Abs)
   0x85, 0x02,        -- REPORT_ID (2)
   0x09, 0x31,        -- USAGE (Y)
   0x81, 0x02,        -- INPUT (Data,Var,Abs)
   0xC0]

/-- The locals in the inside-button-group state with `REPORT_SIZE 1`, `REPORT_COUNT 8`
and running bit offset 16, as reached before the last `INPUT` item of
`joystickXYButtons`. -/
def buttonGroupWalk : Walk :=
  { initWalk with offset := 16, size := 1, count := 8, state := DecodeState.GamePadButton }

/-- The descriptor bytes of a run of `USAGE` items with one-byte payloads `us`. -/
def usageItems : List Nat → List Nat
  | [] => []
  | u :: us => 0x09 :: u :: usageItems us

/-- The one-byte payload that encodes the signed value `m` (two's complement). -/
def byteOfS8 (m : Int) : Nat := (m % 256).toNat

/-- A descriptor made of a `USAGE` item `j`, the axis `USAGE` items `us`, a
`LOGICAL_MINIMUM` with payload byte `m`, a `REPORT_SIZE s`, a `REPORT_COUNT` equal to the
number of usages and one `INPUT (Data,Var,Abs)` item. -/
def axisGroupDescriptor (j : Nat) (us : List Nat) (m s : Nat) : List Nat :=
  0x09 :: j :: (usageItems us ++ [0x15, m, 0x75, s, 0x95, us.length, 0x81, 0x02])

/-- The array `map` after the usages `us` have been written from slot `n` on. -/
def setUsages (map : List Nat) (n : Nat) : List Nat → List Nat
  | [] => map
  | u :: us => setUsages (map.set n u) (n + 1) us

/-- The items of a descriptor in the order in which the loop meets them, each as the
pair of its tag `item & 0xFC` and its argument (an item whose payload is cut short ends
the list). -/
def items : List Nat → List (Nat × Nat)
  | [] => []
  | item :: rest =>
    if item &&& 3 = 0 then (item &&& 0xFC, 0) :: items rest
    else if item &&& 3 = 1 then
      match rest with
      | b0 :: r => (item &&& 0xFC, sext8 b0) :: items r
      | _ => []
    else if item &&& 3 = 2 then
      match rest with
      | b0 :: b1 :: r => (item &&& 0xFC, (sext8 b0 &&& 0xFF) ||| shl32 (sext8 b1) 8) :: items r
      | _ => []
    else
      match rest with
      | b0 :: b1 :: b2 :: b3 :: r =>
        (item &&& 0xFC,
          ((sext8 b0 ||| shl32 (sext8 b1) 8) ||| shl32 (sext8 b2) 16) ||| shl32 (sext8 b3) 24) ::
          items r
      | _ => []

/-- A descriptor that consists of complete items: no payload runs past its end. -/
def wellFormed : List Nat → Bool
  | [] => true
  | item :: rest =>
    if item &&& 3 = 0 then wellFormed rest
    else if item &&& 3 = 1 then
      match rest with
      | _ :: r => wellFormed r
      | _ => false
    else if item &&& 3 = 2 then
      match rest with
      | _ :: _ :: r => wellFormed r
      | _ => false
    else
      match rest with
      | _ :: _ :: _ :: _ :: r => wellFormed r
      | _ => false

/-- A descriptor with a Joystick usage followed by seven axis usages, one more than
the array `map` has slots. -/
def sevenAxisUsages : List Nat :=
  [0x05, 0x01, 0x09, 0x04, 0xA1, 0x01,
   0x09, 0x30,        -- USAGE (X)
   0x09, 0x31,        -- USAGE (Y)
   0x09, 0x32,        -- USAGE (Z)
   0x09, 0x33,        -- USAGE (Rx)
   0x09, 0x34,        -- USAGE (Ry)
   0x09, 0x35,        -- USAGE (Rz)
   0x09, 0x30,        -- USAGE (X), the seventh
   0x15, 0x00, 0x25, 0x7F, 0x75, 0x08, 0x95, 0x07, 0x81, 0x02, 0xC0]

/-- The argument that the specification gives to an item with the payload bytes
`payload`: their little-endian value read as a two's-complement integer of the
payload's width (0 for an empty payload). -/
def specArg (payload : List Nat) : Int :=
  let v : Nat := (payload.enum.map (fun p => (p.2 % 256) * 256 ^ p.1)).sum
  if payload.length = 0 then 0
  else if v < 2 ^ (8 * payload.length - 1) then (v : Int)
  else (v : Int) - 2 ^ (8 * payload.length)

/-- A descriptor whose `LOGICAL_MAXIMUM` item carries 65535 in a four-byte payload
`FF FF 00 00`, before one X axis of 16 bits. -/
def wideLogicalMax : List Nat :=
  [0x05, 0x01, 0x09, 0x04, 0xA1, 0x01,
   0x09, 0x30,                      -- USAGE (X)
   0x15, 0x00,                      -- LOGICAL_MINIMUM (0)
   0x27, 0xFF, 0xFF, 0x00, 0x00,    -- LOGICAL_MAXIMUM (65535)
   0x75, 0x10, 0x95, 0x01, 0x81, 0x02, 0xC0]

/-- The descriptor bytes of one axis group: the axis `USAGE` items `us`, a
`LOGICAL_MINIMUM` with payload byte `m`, a `LOGICAL_MAXIMUM` with payload byte `M`, a
`REPORT_SIZE n`, a `REPORT_COUNT c` and one `INPUT (Data,Var,Abs)` item. -/
def axisGroup (us : List Nat) (m M n c : Nat) : List Nat :=
  usageItems us ++ [0x15, m, 0x25, M, 0x75, n, 0x95, c, 0x81, 0x02]

/-- A descriptor with a `USAGE` item `j` followed by two sequential axis groups. -/
def twoAxisGroups (j : Nat) (us1 : List Nat) (m1 M1 n1 c1 : Nat) (us2 : List Nat)
    (m2 M2 n2 c2 : Nat) : List Nat :=
  0x09 :: j :: (axisGroup us1 m1 M1 n1 c1 ++ axisGroup us2 m2 M2 n2 c2)

/-- A Joystick collection with two sequential axis groups of two 8-bit fields each: the
group (X, Y) with logical range -127..127, then the group (Z, Rz) with logical range
0..100, each with its own `INPUT` item. -/
def groupsXYThenZRz : List Nat :=
  [0x09, 0x04,        -- USAGE (Joystick)
   0x09, 0x30,        -- USAGE (X)
   0x09, 0x31,        -- USAGE (Y)
   0x15, 0x81,        -- LOGICAL_MINIMUM (-127)
   0x25, 0x7F,        -- LOGICAL_MAXIMUM (127)
   0x75, 0x08,        -- REPORT_SIZE (8)
   0x95, 0x02,        -- REPORT_COUNT (2)
   0x81, 0x02,        -- INPUT (Data,Var,Abs)
   0x09, 0x32,        -- USAGE (Z)
   0x09, 0x35,        -- USAGE (Rz)
   0x15, 0x00,        -- LOGICAL_MINIMUM (0)
   0x25, 0x64,        -- LOGICAL_MAXIMUM (100)
   0x75, 0x08,        -- REPORT_SIZE (8)
   0x95, 0x02,        -- REPORT_COUNT (2)
   0x81, 0x02]        -- INPUT (Data,Var,Abs)

/-! ## Asynchronous polling and synchronous report fetch -/

/-- Modelled from the spec: the structure `TUSBGamePadDevice` is declared in the header
`uspi/usbgamepad.h`, which is not among the sources.  The fields that the polling code
reads and writes are kept (`m_pURB` is the in-flight request slot, `none` for the null
pointer, the number naming the allocation), and two counters are added: the number of
calls of `DWHCIDeviceSubmitAsyncRequest` and the number of calls of the status
handler. -/
structure TUSBGamePadDevice where
  m_pURB : Option Nat
  m_pHIDReportDescriptor : Option (List Nat)
  m_pStatusHandler : Bool
  m_pReportBuffer : Buffer
  m_State : TGamePadState
  submitted : Nat
  notified : Nat
deriving DecidableEq, Repr

/-- `USBGamePadDeviceStartRequest`: `assert (pThis->m_pURB == 0)` (a failed assertion is
`none`), allocation of a request into the slot and its submission.  The assertions on
the endpoint and on the report buffer, which hold once the device is configured, and
the boolean that the submission returns, which the completion routine discards, are
not represented. -/
def USBGamePadDeviceStartRequest (pThis : TUSBGamePadDevice) : Option TUSBGamePadDevice :=
  match pThis.m_pURB with
  | some _ => none
  | none => some { pThis with m_pURB := some pThis.submitted, submitted := pThis.submitted + 1 }

/-- A completed transfer as the host controller reports it: the value of
`USBRequestGetStatus` (0 on error), the value of `USBRequestGetResultLength` and the
contents of the report buffer after the transfer. -/
structure Completion where
  status : Nat
  resultLength : Nat
  report : Buffer
deriving DecidableEq, Repr

/-- `USBGamePadDeviceCompletionRoutine` for the request `pURB`:
`assert (pThis->m_pURB == pURB)`, the decode and the handler call under their two
conditions, the release of the request, the clearing of the slot and the call of
`USBGamePadDeviceStartRequest`. -/
def USBGamePadDeviceCompletionRoutine (F : AxisFlags) (pURB : Nat) (c : Completion)
    (pThis : TUSBGamePadDevice) : Option TUSBGamePadDevice :=
  if pThis.m_pURB = some pURB then
    let d0 := { pThis with m_pReportBuffer := c.report }
    let d1 :=
      if c.status ≠ 0 ∧ 0 < c.resultLength then
        match d0.m_pHIDReportDescriptor with
        | some desc =>
          if d0.m_pStatusHandler then
            { d0 with
                m_State := (USBGamePadDeviceDecodeReport F desc d0.m_pReportBuffer d0.m_State).st,
                notified := d0.notified + 1 }
          else d0
        | none => d0
      else d0
    USBGamePadDeviceStartRequest { d1 with m_pURB := none }
  else none

/-- The polling chain: each completion of the list is delivered for the request that is
in flight at that moment (`none` when no request is in flight or an assertion
fails). -/
def pollingRun (F : AxisFlags) : List Completion → TUSBGamePadDevice → Option TUSBGamePadDevice
  | [], d => some d
  | c :: cs, d =>
    match d.m_pURB with
    | none => none
    | some u =>
      match USBGamePadDeviceCompletionRoutine F u c d with
      | none => none
      | some d1 => pollingRun F cs d1

/-- A session after construction: no request in flight, nothing submitted yet. -/
def idleDevice : TUSBGamePadDevice :=
  { m_pURB := none, m_pHIDReportDescriptor := some joystickXYGroupButtons,
    m_pStatusHandler := true, m_pReportBuffer := [], m_State := zeroState,
    submitted := 0, notified := 0 }

/-- The control transfer `DWHCIDeviceControlMessage` as an oracle: from the values of
the requests issued before and the value of this request, the returned length (positive
on success) and the contents of the report buffer after the transfer. -/
abbrev ControlOracle := List Nat → Nat → Int × Buffer

/-- What `USBGamePadDeviceGetReport` has done: the `wValue` expressions of the
`GET_REPORT` requests issued, in order, the number of decoder runs, the report buffer,
the GamePad state, and whether the scan met an item whose payload runs past the end of
the descriptor. -/
structure ReportFetch where
  requests : List Nat
  decodes : Nat
  buffer : Buffer
  st : TGamePadState
  truncated : Bool
deriving DecidableEq, Repr

/-- One call of `DWHCIDeviceControlMessage` with the request value `value`: the
returned length and the record with the request logged and the buffer as the transfer
leaves it. -/
def controlMessage (oracle : ControlOracle) (value : Nat) (f : ReportFetch) : Int × ReportFetch :=
  ((oracle f.requests value).1,
   { f with requests := f.requests ++ [value], buffer := (oracle f.requests value).2 })

/-- The call `USBGamePadDeviceDecodeReport (pThis)` after a successful request. -/
def decodeFetched (F : AxisFlags) (desc : List Nat) (f : ReportFetch) : ReportFetch :=
  { f with st := (USBGamePadDeviceDecodeReport F desc f.buffer f.st).st,
           decodes := f.decodes + 1 }

/-- The loop body of `USBGamePadDeviceGetReport` after the argument has been fetched:
for a `REPORT_ID` item a request with value `arg << 8`, then the decode and the return
when the request succeeds; `k` is the rest of the scan. -/
def getReportStep (F : AxisFlags) (oracle : ControlOracle) (desc : List Nat) (item arg : Nat)
    (f : ReportFetch) (k : ReportFetch → ReportFetch) : ReportFetch :=
  if item &&& 0xFC = HID_REPORT_ID then
    if 0 < (controlMessage oracle (shl32 arg 8) f).1
    then decodeFetched F desc (controlMessage oracle (shl32 arg 8) f).2
    else k (controlMessage oracle (shl32 arg 8) f).2
  else k f

/-- The `while` loop of `USBGamePadDeviceGetReport` over the descriptor bytes that
remain, followed, when the loop runs to the end, by the request with value `0x0000`
and the decode when that request succeeds. -/
def getReportLoop (F : AxisFlags) (oracle : ControlOracle) (desc : List Nat) :
    List Nat → ReportFetch → ReportFetch
  | [], f =>
    if 0 < (controlMessage oracle 0 f).1
    then decodeFetched F desc (controlMessage oracle 0 f).2
    else (controlMessage oracle 0 f).2
  | item :: rest, f =>
    if item &&& 3 = 0 then
      getReportStep F oracle desc item 0 f (getReportLoop F oracle desc rest)
    else if item &&& 3 = 1 then
      match rest with
      | b0 :: r => getReportStep F oracle desc item (sext8 b0) f (getReportLoop F oracle desc r)
      | _ => { f with truncated := true }
    else if item &&& 3 = 2 then
      match rest with
      | b0 :: b1 :: r =>
        getReportStep F oracle desc item ((sext8 b0 &&& 0xFF) ||| shl32 (sext8 b1) 8) f
          (getReportLoop F oracle desc r)
      | _ => { f with truncated := true }
    else
      match rest with
      | b0 :: b1 :: b2 :: b3 :: r =>
        getReportStep F oracle desc item
          (((sext8 b0 ||| shl32 (sext8 b1) 8) ||| shl32 (sext8 b2) 16) ||| shl32 (sext8 b3) 24)
          f (getReportLoop F oracle desc r)
      | _ => { f with truncated := true }

/-- `USBGamePadDeviceGetReport` for the descriptor `desc`, from the report buffer `buf`
and the GamePad state `s`. -/
def USBGamePadDeviceGetReport (F : AxisFlags) (oracle : ControlOracle) (desc : List Nat)
    (buf : Buffer) (s : TGamePadState) : ReportFetch :=
  getReportLoop F oracle desc desc
    { requests := [], decodes := 0, buffer := buf, st := s, truncated := false }

/-- An oracle for which every control transfer fails. -/
def failingOracle : ControlOracle := fun _ _ => (0, [])

/-- An oracle for which only the request with value 0 succeeds, delivering the report
`[0x05, 0xFB, 0x01]`. -/
def onlyIdZeroOracle : ControlOracle :=
  fun _ value => if value = 0 then (3, [0x05, 0xFB, 0x01]) else (0, [])

/-- An oracle for which every control transfer succeeds, delivering the report
`[0x01, 0x07]`. -/
def succeedingOracle : ControlOracle := fun _ _ => (2, [0x01, 0x07])

/-! ## Bit extractor: fields inside one byte -/

theorem mask_in_byte : ∀ o < 9, ∀ L < 9, o + L ≤ 8 →
    toU8 (sub32 (shl32 1 (wrap32 (o + L))) (shl32 1 o)) = 2 ^ o * (2 ^ L - 1) := by
  decide

theorem and_mask_shiftRight (b o L : Nat) :
    (b &&& 2 ^ o * (2 ^ L - 1)) >>> o = (b >>> o) % 2 ^ L := by
  apply Nat.eq_of_testBit_eq
  intro k
  simp only [Nat.testBit_shiftRight, Nat.testBit_and, Nat.testBit_mul_pow_two,
    Nat.testBit_two_pow_sub_one, Nat.testBit_mod_two_pow]
  have hk0 : o + k - o = k := by omega
  rw [hk0]
  by_cases hk : k < L <;> simp [hk]

/-- A field that lies inside one byte is read by a single loop iteration, which
returns the byte shifted down to the field and cut to `L` bits. -/
theorem BitGetUnsigned_in_byte (buf : Buffer) (offset L : Nat) (hL : 1 ≤ L)
    (hin : offset % 8 + L ≤ 8) (hw : offset + L + 7 < 4294967296) :
    BitGetUnsigned buf offset L = (readByte buf (offset / 8) >>> (offset % 8)) % 2 ^ L := by
  have hn : wrap32 (offset + L + 7) / 8 - offset / 8 = 1 := by
    unfold wrap32; omega
  have hc : offset / 8 = sub32 (wrap32 (offset + L)) 1 / 8 := by
    unfold sub32 wrap32; omega
  have hm := mask_in_byte (offset % 8) (by omega) L (by omega) hin
  unfold BitGetUnsigned
  rw [hn]
  simp only [bitGetLoop, bitGetBody, if_pos hc, hm]
  exact and_mask_shiftRight _ _ _

/-! ## Bit extractor: a field of two whole bytes -/

theorem readByte_lt (buf : Buffer) (i : Nat) : readByte buf i < 256 :=
  Nat.mod_lt _ (by norm_num)

theorem and_255 (x : Nat) (h : x < 256) : x &&& 255 = x := by
  have h1 := Nat.and_pow_two_sub_one_eq_mod x 8
  simp at h1
  rw [h1]; exact Nat.mod_eq_of_lt h

theorem or_low (a b k : Nat) (hb : b < 2 ^ k) : a * 2 ^ k ||| b = a * 2 ^ k + b := by
  rw [Nat.mul_comm, ← Nat.mul_add_lt_is_or hb]

/-- A 16-bit field that starts on a byte boundary is returned with its first byte on
top: `buffer[b] * 256 + buffer[b + 1]`. -/
theorem BitGetUnsigned_two_bytes (buf : Buffer) (b : Nat) (hw : 8 * b + 16 + 7 < 4294967296) :
    BitGetUnsigned buf (8 * b) 16 = readByte buf b * 256 + readByte buf (b + 1) := by
  have hn : wrap32 (8 * b + 16 + 7) / 8 - 8 * b / 8 = 2 := by unfold wrap32; omega
  have c1 : ¬ (8 * b / 8 = sub32 (wrap32 (8 * b + 16)) 1 / 8) := by unfold sub32 wrap32; omega
  have c2 : b + 1 = sub32 (wrap32 (8 * b + 16)) 1 / 8 := by unfold sub32 wrap32; omega
  have c3 : 8 * b / 8 = b := by omega
  have c4 : 8 * b % 8 = 0 := by omega
  have c5 : ¬ (b + 1 = b) := by omega
  unfold BitGetUnsigned
  rw [hn]
  simp only [bitGetLoop, bitGetBody, if_neg c1, c3, c4, if_true, if_neg c5, ← c2]
  have e1 : toU8 (sub32 256 (shl32 1 0)) = 255 := by decide
  have e2 : toU8 (sub32 (shl32 1 (wrap32 (0 + 16))) 1) = 255 := by decide
  have e3 : sub32 16 (wrap32 (0 + (8 - 0))) = 8 := by decide
  rw [e1, e2, e3, and_255 _ (readByte_lt _ _), and_255 _ (readByte_lt _ _)]
  have h0 := readByte_lt buf b
  have h1 := readByte_lt buf (b + 1)
  have hm : readByte buf b * 256 % 4294967296 = readByte buf b * 256 :=
    Nat.mod_eq_of_lt (by omega)
  have ho := or_low (readByte buf b) (readByte buf (b + 1)) 8 (by simpa using h1)
  have h8 : (8 : Nat) < 32 := by decide
  simp only [shl32, Nat.shiftRight_zero, if_pos h8]
  norm_num
  rw [hm]
  simpa using ho

/-- A 32-bit field that starts on a byte boundary is returned with its first byte on
top (most significant byte first). -/
theorem BitGetUnsigned_four_bytes (buf : Buffer) (b : Nat) (hw : 8 * b + 32 + 7 < 4294967296) :
    BitGetUnsigned buf (8 * b) 32 =
      readByte buf b * 16777216 + readByte buf (b + 1) * 65536 + readByte buf (b + 2) * 256 +
        readByte buf (b + 3) := by
  have hn : wrap32 (8 * b + 32 + 7) / 8 - 8 * b / 8 = 4 := by unfold wrap32; omega
  have c1 : ¬ (b = b + 3) := by omega
  have c2 : sub32 (wrap32 (8 * b + 32)) 1 / 8 = b + 3 := by unfold sub32 wrap32; omega
  have c3 : 8 * b / 8 = b := by omega
  have c4 : 8 * b % 8 = 0 := by omega
  have c5 : ¬ (b + 1 = b) := by omega
  have c6 : ¬ (b + 1 + 1 = b) := by omega
  have c7 : ¬ (b + 1 + 1 + 1 = b) := by omega
  have c8 : ¬ (b + 1 = b + 3) := by omega
  have c9 : ¬ (b + 1 + 1 = b + 3) := by omega
  have c10 : b + 1 + 1 + 1 = b + 3 := by omega
  unfold BitGetUnsigned
  rw [hn]
  simp only [bitGetLoop, bitGetBody, c2, c3, c4, if_neg c1, if_true, if_neg c5, if_neg c6,
    if_neg c7, if_neg c8, if_neg c9, c10]
  have e1 : toU8 (sub32 256 (shl32 1 0)) = 255 := by decide
  have e2 : toU8 (sub32 (shl32 1 (wrap32 (0 + 32))) 1) = 255 := by decide
  have e3 : sub32 32 (wrap32 (0 + (8 - 0))) = 24 := by decide
  have e4 : sub32 32 (wrap32 (wrap32 (0 + (8 - 0)) + 8)) = 16 := by decide
  have e5 : sub32 32 (wrap32 (wrap32 (wrap32 (0 + (8 - 0)) + 8) + 8)) = 8 := by decide
  rw [e1, e2, e3, e4, e5, and_255 _ (readByte_lt _ _), and_255 _ (readByte_lt _ _)]
  have h0 := readByte_lt buf b
  have h1 := readByte_lt buf (b + 1)
  have h2 := readByte_lt buf (b + 2)
  have h3 := readByte_lt buf (b + 3)
  have hb2 : b + 1 + 1 = b + 2 := by omega
  simp only [shl32, Nat.shiftRight_zero, hb2]
  norm_num
  have m0 : readByte buf b * 16777216 % 4294967296 = readByte buf b * 16777216 :=
    Nat.mod_eq_of_lt (by omega)
  have m1 : readByte buf (b + 1) * 65536 % 4294967296 = readByte buf (b + 1) * 65536 :=
    Nat.mod_eq_of_lt (by omega)
  have m2 : readByte buf (b + 2) * 256 % 4294967296 = readByte buf (b + 2) * 256 :=
    Nat.mod_eq_of_lt (by omega)
  rw [m0, m1, m2]
  have o1 : readByte buf b * 16777216 ||| readByte buf (b + 1) * 65536 =
      readByte buf b * 16777216 + readByte buf (b + 1) * 65536 := by
    have h := or_low (readByte buf b) (readByte buf (b + 1) * 65536) 24 (by norm_num; omega)
    norm_num at h
    exact h
  have o2 : (readByte buf b * 16777216 + readByte buf (b + 1) * 65536) |||
      readByte buf (b + 2) * 256 =
      readByte buf b * 16777216 + readByte buf (b + 1) * 65536 + readByte buf (b + 2) * 256 := by
    have h := or_low (readByte buf b * 256 + readByte buf (b + 1)) (readByte buf (b + 2) * 256) 16
      (by norm_num; omega)
    norm_num at h
    have e : (readByte buf b * 256 + readByte buf (b + 1)) * 65536 =
        readByte buf b * 16777216 + readByte buf (b + 1) * 65536 := by ring
    rw [e] at h
    exact h
  have o3 : (readByte buf b * 16777216 + readByte buf (b + 1) * 65536 +
      readByte buf (b + 2) * 256) ||| readByte buf (b + 3) =
      readByte buf b * 16777216 + readByte buf (b + 1) * 65536 + readByte buf (b + 2) * 256 +
        readByte buf (b + 3) := by
    have h := or_low (readByte buf b * 65536 + readByte buf (b + 1) * 256 + readByte buf (b + 2))
      (readByte buf (b + 3)) 8 (by norm_num; omega)
    norm_num at h
    have e : (readByte buf b * 65536 + readByte buf (b + 1) * 256 + readByte buf (b + 2)) * 256 =
        readByte buf b * 16777216 + readByte buf (b + 1) * 65536 + readByte buf (b + 2) * 256 := by
      ring
    rw [e] at h
    exact h
  rw [o1, o2, o3]

/-! ## Spec-side bit insertion -/

theorem setBufferBit_length (buf : Buffer) (n : Nat) (b : Bool) :
    (setBufferBit buf n b).length = buf.length := by
  simp [setBufferBit]

theorem writeBits_length (buf : Buffer) (offset v L : Nat) :
    (writeBits buf offset v L).length = buf.length := by
  induction L with
  | zero => rfl
  | succ L ih => simp [writeBits, setBufferBit_length, ih]

theorem testBit_mod_256 (x i : Nat) (hi : i < 8) : (x % 256).testBit i = x.testBit i := by
  have h := Nat.testBit_mod_two_pow x 8 i
  simpa [hi] using h

theorem testBit_255 (i : Nat) (hi : i < 8) : (255 : Nat).testBit i = true := by
  have h := Nat.testBit_two_pow_sub_one 8 i
  simpa [hi] using h

theorem bufferBit_setBufferBit (buf : Buffer) (n m : Nat) (b : Bool) (hn : n / 8 < buf.length) :
    bufferBit (setBufferBit buf n b) m = if m = n then b else bufferBit buf m := by
  unfold bufferBit setBufferBit readByte
  by_cases hd : m / 8 = n / 8
  · have hm8 : m % 8 < 8 := Nat.mod_lt _ (by norm_num)
    rw [hd]
    simp only [List.getD_eq_getElem?_getD, List.getElem?_set_self hn, Option.getD_some]
    rw [testBit_mod_256 _ _ hm8, testBit_mod_256 _ _ hm8]
    by_cases hmn : m = n
    · subst hmn
      cases b <;>
        simp [Nat.testBit_and, Nat.testBit_or, Nat.testBit_xor, Nat.testBit_two_pow,
          testBit_255 _ hm8, testBit_mod_256 _ _ hm8]
    · have hne : ¬ n % 8 = m % 8 := by omega
      rw [if_neg hmn]
      cases b <;>
        simp [Nat.testBit_and, Nat.testBit_or, Nat.testBit_xor, Nat.testBit_two_pow,
          testBit_255 _ hm8, testBit_mod_256 _ _ hm8, hne]
  · have hmn : ¬ m = n := by
      intro h; exact hd (by rw [h])
    have hd2 : ¬ n / 8 = m / 8 := fun h => hd h.symm
    rw [if_neg hmn]
    simp [List.getD_eq_getElem?_getD, List.getElem?_set_ne hd2]

theorem bufferBit_writeBits (buf : Buffer) (offset v L : Nat) (hfit : offset + L ≤ 8 * buf.length)
    (m : Nat) :
    bufferBit (writeBits buf offset v L) m =
      if offset ≤ m ∧ m < offset + L then v.testBit (m - offset) else bufferBit buf m := by
  induction L with
  | zero =>
    have h0 : ¬ (offset ≤ m ∧ m < offset + 0) := by omega
    rw [if_neg h0]
    rfl
  | succ L ih =>
    have ih1 := ih (by omega)
    have hlen : (offset + L) / 8 < (writeBits buf offset v L).length := by
      rw [writeBits_length]; omega
    simp only [writeBits]
    rw [bufferBit_setBufferBit _ _ _ _ hlen, ih1]
    by_cases hm : m = offset + L
    · subst hm
      have : offset ≤ offset + L ∧ offset + L < offset + (L + 1) := by omega
      simp [this]
    · rw [if_neg hm]
      by_cases hr : offset ≤ m ∧ m < offset + L
      · have : offset ≤ m ∧ m < offset + (L + 1) := by omega
        rw [if_pos hr, if_pos this]
      · have : ¬ (offset ≤ m ∧ m < offset + (L + 1)) := by omega
        rw [if_neg hr, if_neg this]

/-! ## Claims on the bit extractor -/

theorem bufferBit_in_byte (buf : Buffer) (offset k : Nat) (hk : offset % 8 + k < 8) :
    bufferBit buf (offset + k) = (readByte buf (offset / 8)).testBit (offset % 8 + k) := by
  unfold bufferBit
  have h1 : (offset + k) / 8 = offset / 8 := by omega
  have h2 : (offset + k) % 8 = offset % 8 + k := by omega
  rw [h1, h2]

theorem BitGetUnsigned_in_byte_testBit (buf : Buffer) (offset L : Nat) (hL : 1 ≤ L)
    (hin : offset % 8 + L ≤ 8) (hw : offset + L + 7 < 4294967296) (k : Nat) (hk : k < L) :
    (BitGetUnsigned buf offset L).testBit k = bufferBit buf (offset + k) := by
  rw [BitGetUnsigned_in_byte buf offset L hL hin hw, bufferBit_in_byte buf offset k (by omega),
    Nat.testBit_mod_two_pow, Nat.testBit_shiftRight]
  simp [hk]

theorem BitGetUnsigned_in_byte_lt (buf : Buffer) (offset L : Nat) (hL : 1 ≤ L)
    (hin : offset % 8 + L ≤ 8) (hw : offset + L + 7 < 4294967296) :
    BitGetUnsigned buf offset L < 2 ^ L := by
  rw [BitGetUnsigned_in_byte buf offset L hL hin hw]
  exact Nat.mod_lt _ (Nat.pos_pow_of_pos L (by norm_num))

/-- C1, as stated, fails: for the two-byte buffer `[0x01, 0x02]`, offset 0 and length 16
(a field crossing one byte boundary, the buffer holding it exactly) bit 0 of the value
returned by `BitGetUnsigned` is 0 while buffer bit 0 is 1; the function returns
`0x0102`, the first byte on top.  Writing `0x0201` into the sixteen bit positions and
extracting it again returns `0x0102`. -/
theorem BitGetUnsigned_lsb_first_fails_across_bytes :
    (1 ≤ 16 ∧ 16 ≤ 32 ∧ 0 + 16 ≤ 8 * ([1, 2] : Buffer).length) ∧
    ¬ (∀ k, k < 16 → (BitGetUnsigned [1, 2] 0 16).testBit k = bufferBit [1, 2] (0 + k)) ∧
    BitGetUnsigned [1, 2] 0 16 = 258 ∧
    writeBits [0, 0] 0 513 16 = [1, 2] ∧
    BitGetUnsigned (writeBits [0, 0] 0 513 16) 0 16 ≠ 513 := by
  refine ⟨by decide, ?_, by decide, by decide, by decide⟩
  intro h
  have h0 := h 0 (by decide)
  revert h0
  decide

/-- C1 (amended): for a field of `L >= 1` bits that lies inside one byte
(`offset % 8 + L <= 8`; `offset + L + 7 < 2^32` says that the 32-bit loop bound does not
wrap, as for every buffer of less than `2^29` bytes that holds the field), bit `k` of
the value returned by `BitGetUnsigned` equals buffer bit `offset + k` for every
`k < L`, the value is below `2^L`, and extracting a value written into those bit
positions of a buffer that holds them returns that value (its low `L` bits).  A field
of two whole bytes that starts on a byte boundary is returned with its first byte as
the high byte. -/
theorem BitGetUnsigned_lsb_first_in_byte (buf : Buffer) (offset L : Nat) (hL : 1 ≤ L)
    (hin : offset % 8 + L ≤ 8) (hw : offset + L + 7 < 4294967296) :
    (∀ k, k < L → (BitGetUnsigned buf offset L).testBit k = bufferBit buf (offset + k)) ∧
    BitGetUnsigned buf offset L < 2 ^ L ∧
    (∀ v, offset + L ≤ 8 * buf.length →
      BitGetUnsigned (writeBits buf offset v L) offset L = v % 2 ^ L) ∧
    (∀ b, 8 * b + 16 + 7 < 4294967296 →
      BitGetUnsigned buf (8 * b) 16 = readByte buf b * 256 + readByte buf (b + 1)) := by
  refine ⟨fun k hk => BitGetUnsigned_in_byte_testBit buf offset L hL hin hw k hk,
    BitGetUnsigned_in_byte_lt buf offset L hL hin hw, ?_,
    fun b hb => BitGetUnsigned_two_bytes buf b hb⟩
  intro v hfit
  apply Nat.eq_of_testBit_eq
  intro k
  by_cases hk : k < L
  · rw [BitGetUnsigned_in_byte_testBit _ offset L hL hin hw k hk,
      bufferBit_writeBits buf offset v L hfit, Nat.testBit_mod_two_pow]
    have hr : offset ≤ offset + k ∧ offset + k < offset + L := by omega
    have hs : offset + k - offset = k := by omega
    rw [if_pos hr, hs]
    simp [hk]
  · have hlt := BitGetUnsigned_in_byte_lt (writeBits buf offset v L) offset L hL hin hw
    have hle : 2 ^ L ≤ 2 ^ k := Nat.pow_le_pow_right (by norm_num) (by omega)
    rw [Nat.testBit_lt_two_pow (Nat.lt_of_lt_of_le hlt hle), Nat.testBit_mod_two_pow]
    simp [hk]

theorem BitGetUnsigned_lsb_first_in_byte_witness :
    (1 ≤ 4 ∧ 2 % 8 + 4 ≤ 8 ∧ 2 + 4 + 7 < 4294967296) ∧
    BitGetUnsigned [180] 2 4 < 2 ^ 4 ∧
    BitGetUnsigned (writeBits [180] 2 9 4) 2 4 = 9 % 2 ^ 4 :=
  ⟨by decide,
   (BitGetUnsigned_lsb_first_in_byte [180] 2 4 (by decide) (by decide) (by decide)).2.1,
   (BitGetUnsigned_lsb_first_in_byte [180] 2 4 (by decide) (by decide) (by decide)).2.2.1 9
     (by decide)⟩

set_option maxRecDepth 1000000 in
theorem signed_in_byte_aux : ∀ L < 9, ∀ r < 256, 1 ≤ L → r < 2 ^ L →
    (toS32 (if r &&& shl32 1 (sub32 L 1) ≠ 0
        then r ||| sub32 4294967295 (sub32 (shl32 1 L) 1) else r) < 0
      ↔ r.testBit (L - 1) = true) := by
  decide

/-- C2, as stated, fails: for the buffer `[0x00, 0x80]`, offset 0 and length 16 the
field's top bit, buffer bit 15, is 1, and `BitGetSigned` returns 128, which is not
negative. -/
theorem BitGetSigned_sign_fails_across_bytes :
    (1 ≤ 16 ∧ 16 ≤ 32) ∧ bufferBit [0, 128] (0 + 16 - 1) = true ∧
    BitGetSigned [0, 128] 0 16 = 128 ∧
    ¬ (BitGetSigned [0, 128] 0 16 < 0 ↔ bufferBit [0, 128] (0 + 16 - 1) = true) := by
  decide

/-- C2 (amended): for a field of `L >= 1` bits that lies inside one byte
(`offset % 8 + L <= 8`, no wrap of the 32-bit loop bound), `BitGetSigned` returns a
negative value exactly when the field's top bit, buffer bit `offset + L - 1`, is 1. -/
theorem BitGetSigned_neg_iff_top_bit_in_byte (buf : Buffer) (offset L : Nat) (hL : 1 ≤ L)
    (hin : offset % 8 + L ≤ 8) (hw : offset + L + 7 < 4294967296) :
    BitGetSigned buf offset L < 0 ↔ bufferBit buf (offset + L - 1) = true := by
  have hlt := BitGetUnsigned_in_byte_lt buf offset L hL hin hw
  have hle : 2 ^ L ≤ 2 ^ 8 := Nat.pow_le_pow_right (by norm_num) (by omega)
  have h256 : BitGetUnsigned buf offset L < 256 := by
    have h := Nat.lt_of_lt_of_le hlt hle
    simpa using h
  have haux := signed_in_byte_aux L (by omega) (BitGetUnsigned buf offset L) h256 hL hlt
  have hbit := BitGetUnsigned_in_byte_testBit buf offset L hL hin hw (L - 1) (by omega)
  have hidx : offset + (L - 1) = offset + L - 1 := by omega
  rw [hidx] at hbit
  rw [← hbit]
  exact haux

theorem BitGetSigned_neg_iff_top_bit_in_byte_witness :
    (1 ≤ 3 ∧ 9 % 8 + 3 ≤ 8 ∧ 9 + 3 + 7 < 4294967296) ∧
    (BitGetSigned [0, 8] 9 3 < 0 ↔ bufferBit [0, 8] (9 + 3 - 1) = true) :=
  ⟨by decide,
   BitGetSigned_neg_iff_top_bit_in_byte [0, 8] 9 3 (by decide) (by decide) (by decide)⟩

/-! ## The descriptor walk: unfolding and composition -/

theorem decodeLoop_nil (F : AxisFlags) (buf : Buffer) (w : Walk) (s : TGamePadState) :
    decodeLoop F buf [] w s = { exit := Exit.finished, walk := w, st := s } := rfl

theorem decodeLoop_cons (F : AxisFlags) (buf : Buffer) (item : Nat) (rest : List Nat)
    (w : Walk) (s : TGamePadState) :
    decodeLoop F buf (item :: rest) w s =
      match fetchArg item rest with
      | none => { exit := Exit.truncated, walk := w, st := s }
      | some (arg, r) => stepThen F buf item arg w s (decodeLoop F buf r) := by
  rcases rest with _ | ⟨b0, _ | ⟨b1, _ | ⟨b2, _ | ⟨b3, r⟩⟩⟩⟩ <;>
  · show (ite _ _ _) = _
    unfold fetchArg
    split_ifs <;> rfl

theorem itemTags_cons (item : Nat) (rest : List Nat) :
    itemTags (item :: rest) =
      match fetchArg item rest with
      | none => []
      | some (_, r) => (item &&& 0xFC) :: itemTags r := by
  rcases rest with _ | ⟨b0, _ | ⟨b1, _ | ⟨b2, _ | ⟨b3, r⟩⟩⟩⟩ <;>
  · show (ite _ _ _) = _
    unfold fetchArg
    split_ifs <;> rfl

theorem fetchArg_length (item : Nat) (rest : List Nat) (arg : Nat) (r : List Nat)
    (h : fetchArg item rest = some (arg, r)) : r.length ≤ rest.length := by
  unfold fetchArg at h
  split_ifs at h
  · simp only [Option.some.injEq, Prod.mk.injEq] at h
    rw [← h.2]
  · rcases rest with _ | ⟨b0, r0⟩
    · simp at h
    · simp only [Option.some.injEq, Prod.mk.injEq] at h
      rw [← h.2]; simp
  · rcases rest with _ | ⟨b0, _ | ⟨b1, r0⟩⟩
    · simp at h
    · simp at h
    · simp only [Option.some.injEq, Prod.mk.injEq] at h
      rw [← h.2]; simp; omega
  · rcases rest with _ | ⟨b0, _ | ⟨b1, _ | ⟨b2, _ | ⟨b3, r0⟩⟩⟩⟩
    · simp at h
    · simp at h
    · simp at h
    · simp at h
    · simp only [Option.some.injEq, Prod.mk.injEq] at h
      rw [← h.2]; simp; omega

theorem fetchArg_append (item : Nat) (rest : List Nat) (arg : Nat) (r : List Nat)
    (h : fetchArg item rest = some (arg, r)) (tl : List Nat) :
    fetchArg item (rest ++ tl) = some (arg, r ++ tl) := by
  unfold fetchArg at h ⊢
  split_ifs at h ⊢
  · simp only [Option.some.injEq, Prod.mk.injEq] at h
    rw [← h.1, ← h.2]
  · rcases rest with _ | ⟨b0, r0⟩
    · simp at h
    · simp only [Option.some.injEq, Prod.mk.injEq] at h
      rw [← h.1, ← h.2]; rfl
  · rcases rest with _ | ⟨b0, _ | ⟨b1, r0⟩⟩
    · simp at h
    · simp at h
    · simp only [Option.some.injEq, Prod.mk.injEq] at h
      rw [← h.1, ← h.2]; rfl
  · rcases rest with _ | ⟨b0, _ | ⟨b1, _ | ⟨b2, _ | ⟨b3, r0⟩⟩⟩⟩
    · simp at h
    · simp at h
    · simp at h
    · simp at h
    · simp only [Option.some.injEq, Prod.mk.injEq] at h
      rw [← h.1, ← h.2]; rfl

/-- Items that the walk processes to the end without leaving the loop can be followed
by further items: the walk over the concatenation continues from the locals and the
state reached at the end of the first part. -/
theorem decodeLoop_append_aux (F : AxisFlags) (buf : Buffer) (tl : List Nat) :
    ∀ (n : Nat) (pre : List Nat), pre.length ≤ n → ∀ (w : Walk) (s : TGamePadState)
      (w1 : Walk) (s1 : TGamePadState),
      decodeLoop F buf pre w s = { exit := Exit.finished, walk := w1, st := s1 } →
      decodeLoop F buf (pre ++ tl) w s = decodeLoop F buf tl w1 s1 := by
  intro n
  induction n with
  | zero =>
    intro pre hlen w s w1 s1 h
    have hnil : pre = [] := List.length_eq_zero.mp (Nat.le_zero.mp hlen)
    subst hnil
    rw [decodeLoop_nil] at h
    injection h with _ hw hs
    rw [List.nil_append, hw, hs]
  | succ n ih =>
    intro pre hlen w s w1 s1 h
    rcases pre with _ | ⟨item, rest⟩
    · rw [decodeLoop_nil] at h
      injection h with _ hw hs
      rw [List.nil_append, hw, hs]
    · rw [decodeLoop_cons] at h
      rw [List.cons_append, decodeLoop_cons]
      cases hf : fetchArg item rest with
      | none => rw [hf] at h; simp at h
      | some p =>
        obtain ⟨arg, r⟩ := p
        rw [hf] at h
        rw [fetchArg_append item rest arg r hf tl]
        simp only [stepThen] at h ⊢
        cases hp : processItem F buf item arg w s with
        | next w2 s2 =>
          rw [hp] at h
          simp only at h ⊢
          have hr : r.length ≤ n := by
            have h1 := fetchArg_length item rest arg r hf
            simp only [List.length_cons] at hlen
            omega
          exact ih r hr w2 s2 w1 s1 h
        | abort => rw [hp] at h; simp at h
        | overflow => rw [hp] at h; simp at h

theorem decodeLoop_append (F : AxisFlags) (buf : Buffer) (pre tl : List Nat) (w : Walk)
    (s : TGamePadState) (w1 : Walk) (s1 : TGamePadState)
    (h : decodeLoop F buf pre w s = { exit := Exit.finished, walk := w1, st := s1 }) :
    decodeLoop F buf (pre ++ tl) w s = decodeLoop F buf tl w1 s1 :=
  decodeLoop_append_aux F buf tl pre.length pre (Nat.le_refl _) w s w1 s1 h

/-! ## Single items -/

theorem BitGetUnsigned_first_byte (buf : Buffer) : BitGetUnsigned buf 0 8 = readByte buf 0 := by
  rw [BitGetUnsigned_in_byte buf 0 8 (by decide) (by decide) (by decide)]
  have h : readByte buf 0 < 256 := Nat.mod_lt _ (by norm_num)
  simp only [Nat.zero_div, Nat.zero_mod, Nat.shiftRight_zero]
  exact Nat.mod_eq_of_lt (by simpa using h)

theorem dispatch_input (F : AxisFlags) (buf : Buffer) (arg : Nat) (w : Walk) (s : TGamePadState) :
    dispatch F buf HID_INPUT arg w s =
      Step.next { (inputItem F buf arg w s).1 with
          offset := wrap32 ((inputItem F buf arg w s).1.offset +
            wrap32 ((inputItem F buf arg w s).1.count * (inputItem F buf arg w s).1.size)) }
        (inputItem F buf arg w s).2 := by
  simp [dispatch, HID_INPUT, HID_USAGE_PAGE, HID_USAGE, HID_LOGICAL_MIN, HID_PHYSICAL_MIN,
    HID_LOGICAL_MAX, HID_PHYSICAL_MAX, HID_REPORT_SIZE, HID_REPORT_COUNT]

theorem processItem_input (F : AxisFlags) (buf : Buffer) (item arg : Nat) (w : Walk)
    (s : TGamePadState) (hitem : item &&& 0xFC = HID_INPUT) :
    processItem F buf item arg w s = dispatch F buf HID_INPUT arg w s := by
  have hne : ¬ (HID_INPUT = HID_REPORT_ID) := by decide
  unfold processItem
  rw [hitem, if_neg hne]

theorem inputItem_sizes (F : AxisFlags) (buf : Buffer) (arg : Nat) (w : Walk) (s : TGamePadState) :
    (inputItem F buf arg w s).1.offset = w.offset ∧ (inputItem F buf arg w s).1.count = w.count ∧
    (inputItem F buf arg w s).1.size = w.size := by
  unfold inputItem
  split_ifs <;> simp

/-! ## Items with a one-byte payload -/

theorem sext8_small (b : Nat) (h : b < 128) : sext8 b = b := by
  unfold sext8
  have h1 : b % 256 = b := Nat.mod_eq_of_lt (by omega)
  rw [h1, if_pos h]

theorem decodeLoop_item1 (F : AxisFlags) (buf : Buffer) (item b0 : Nat) (r : List Nat)
    (w : Walk) (s : TGamePadState) (h : item &&& 3 = 1) :
    decodeLoop F buf (item :: b0 :: r) w s =
      stepThen F buf item (sext8 b0) w s (decodeLoop F buf r) := by
  have h0 : ¬ (item &&& 3 = 0) := by rw [h]; decide
  rw [decodeLoop_cons]
  unfold fetchArg
  rw [if_neg h0, if_pos h]

theorem walk_usage_gamepad (F : AxisFlags) (buf : Buffer) (j : Nat) (r : List Nat) (w : Walk)
    (s : TGamePadState) (hj : j = 4 ∨ j = 5) :
    decodeLoop F buf (0x09 :: j :: r) w s =
      decodeLoop F buf r { w with state := DecodeState.GamePad } s := by
  rw [decodeLoop_item1 F buf 0x09 j r w s (by decide)]
  have hs : sext8 j = j := sext8_small j (by omega)
  have h1 : (0x09 : Nat) &&& 0xFC = HID_USAGE := by decide
  have h2 : ¬ (HID_USAGE = HID_REPORT_ID) := by decide
  have h3 : ¬ (HID_USAGE = HID_USAGE_PAGE) := by decide
  have h4 : j = HID_USAGE_JOYSTICK ∨ j = HID_USAGE_GAMEPAD := hj
  simp only [stepThen, processItem, h1, if_neg h2, dispatch, if_neg h3, if_true, hs, if_pos h4]

theorem walk_usage_axis (F : AxisFlags) (buf : Buffer) (u : Nat) (r : List Nat) (w : Walk)
    (s : TGamePadState) (hu : isAxisUsage u) (hidx : w.index < MAX_AXIS) :
    decodeLoop F buf (0x09 :: u :: r) w s =
      decodeLoop F buf r
        { w with map := w.map.set w.index u, index := w.index + 1,
                 state := if w.state = DecodeState.GamePad
                          then DecodeState.GamePadAxis else w.state } s := by
  rw [decodeLoop_item1 F buf 0x09 u r w s (by decide)]
  have hlt : u < 128 := by
    unfold isAxisUsage HID_USAGE_X HID_USAGE_Y HID_USAGE_Z HID_USAGE_RX HID_USAGE_RY
      HID_USAGE_RZ at hu
    omega
  have hs : sext8 u = u := sext8_small u hlt
  have h1 : (0x09 : Nat) &&& 0xFC = HID_USAGE := by decide
  have h2 : ¬ (HID_USAGE = HID_REPORT_ID) := by decide
  have h3 : ¬ (HID_USAGE = HID_USAGE_PAGE) := by decide
  have h4 : ¬ (u = HID_USAGE_JOYSTICK ∨ u = HID_USAGE_GAMEPAD) := by
    unfold isAxisUsage HID_USAGE_X HID_USAGE_Y HID_USAGE_Z HID_USAGE_RX HID_USAGE_RY
      HID_USAGE_RZ at hu
    unfold HID_USAGE_JOYSTICK HID_USAGE_GAMEPAD
    omega
  have h5 : u = HID_USAGE_X ∨ u = HID_USAGE_Y ∨ u = HID_USAGE_Z ∨
      u = HID_USAGE_RX ∨ u = HID_USAGE_RY ∨ u = HID_USAGE_RZ := hu
  simp only [stepThen, processItem, h1, if_neg h2, dispatch, if_neg h3, if_true, hs, if_neg h4,
    if_pos h5, if_pos hidx]

theorem walk_usage_page_buttons (F : AxisFlags) (buf : Buffer) (r : List Nat) (w : Walk)
    (s : TGamePadState) (hst : w.state = DecodeState.GamePad) :
    decodeLoop F buf (0x05 :: 0x09 :: r) w s =
      decodeLoop F buf r { w with state := DecodeState.GamePadButton } s := by
  rw [decodeLoop_item1 F buf 0x05 0x09 r w s (by decide)]
  have hs : sext8 0x09 = 0x09 := by decide
  have h1 : (0x05 : Nat) &&& 0xFC = HID_USAGE_PAGE := by decide
  have h2 : ¬ (HID_USAGE_PAGE = HID_REPORT_ID) := by decide
  have h3 : (9 : Nat) = HID_USAGE_PAGE_BUTTONS ∧ w.state = DecodeState.GamePad := ⟨rfl, hst⟩
  simp only [stepThen, processItem, h1, if_neg h2, dispatch, if_true, hs, if_pos h3]

theorem walk_logical_min (F : AxisFlags) (buf : Buffer) (m : Nat) (r : List Nat) (w : Walk)
    (s : TGamePadState) :
    decodeLoop F buf (0x15 :: m :: r) w s = decodeLoop F buf r { w with min := sext8 m } s := by
  rw [decodeLoop_item1 F buf 0x15 m r w s (by decide)]
  have h1 : (0x15 : Nat) &&& 0xFC = HID_LOGICAL_MIN := by decide
  have h2 : ¬ (HID_LOGICAL_MIN = HID_REPORT_ID) := by decide
  have h3 : ¬ (HID_LOGICAL_MIN = HID_USAGE_PAGE) := by decide
  have h4 : ¬ (HID_LOGICAL_MIN = HID_USAGE) := by decide
  simp only [stepThen, processItem, h1, if_neg h2, dispatch, if_neg h3, if_neg h4, true_or,
    if_true]

theorem walk_report_size (F : AxisFlags) (buf : Buffer) (n : Nat) (r : List Nat) (w : Walk)
    (s : TGamePadState) :
    decodeLoop F buf (0x75 :: n :: r) w s = decodeLoop F buf r { w with size := sext8 n } s := by
  rw [decodeLoop_item1 F buf 0x75 n r w s (by decide)]
  have h1 : (0x75 : Nat) &&& 0xFC = HID_REPORT_SIZE := by decide
  simp [stepThen, processItem, h1, dispatch, HID_REPORT_SIZE, HID_REPORT_ID, HID_USAGE_PAGE,
    HID_USAGE, HID_LOGICAL_MIN, HID_PHYSICAL_MIN, HID_LOGICAL_MAX, HID_PHYSICAL_MAX]

theorem walk_report_count (F : AxisFlags) (buf : Buffer) (c : Nat) (r : List Nat) (w : Walk)
    (s : TGamePadState) :
    decodeLoop F buf (0x95 :: c :: r) w s = decodeLoop F buf r { w with count := sext8 c } s := by
  rw [decodeLoop_item1 F buf 0x95 c r w s (by decide)]
  have h1 : (0x95 : Nat) &&& 0xFC = HID_REPORT_COUNT := by decide
  simp [stepThen, processItem, h1, dispatch, HID_REPORT_COUNT, HID_REPORT_SIZE, HID_REPORT_ID,
    HID_USAGE_PAGE, HID_USAGE, HID_LOGICAL_MIN, HID_PHYSICAL_MIN, HID_LOGICAL_MAX,
    HID_PHYSICAL_MAX]

theorem walk_input (F : AxisFlags) (buf : Buffer) (a : Nat) (r : List Nat) (w : Walk)
    (s : TGamePadState) :
    decodeLoop F buf (0x81 :: a :: r) w s =
      decodeLoop F buf r
        { (inputItem F buf (sext8 a) w s).1 with
            offset := wrap32 (w.offset + wrap32 (w.count * w.size)) }
        (inputItem F buf (sext8 a) w s).2 := by
  rw [decodeLoop_item1 F buf 0x81 a r w s (by decide)]
  have h1 : (0x81 : Nat) &&& 0xFC = HID_INPUT := by decide
  obtain ⟨e1, e2, e3⟩ := inputItem_sizes F buf (sext8 a) w s
  simp only [stepThen, processItem_input F buf 0x81 (sext8 a) w s h1, dispatch_input, e1, e2, e3]

/-! ## Claims on single items -/

/-- C4: an `INPUT` item with attribute `0x02` processed in the inside-button-group state,
with current size `w.size`, count `w.count` and running offset `w.offset`, sets
`nbuttons` to the count, sets `buttons` to `BitGetUnsigned` of `size * count` bits at
the offset, and returns to the inside-gamepad-collection state (the offset then advances
by `count * size`); that state is reached from any state by a Joystick or Gamepad
`USAGE` followed by `USAGE_PAGE (Buttons)`. -/
theorem input_in_button_group (F : AxisFlags) (buf : Buffer) (item : Nat) (w : Walk)
    (s : TGamePadState) (hitem : item &&& 0xFC = HID_INPUT)
    (hst : w.state = DecodeState.GamePadButton) :
    processItem F buf item 2 w s =
      Step.next
        { w with state := DecodeState.GamePad,
                 offset := wrap32 (w.offset + wrap32 (w.count * w.size)) }
        { s with nbuttons := w.count,
                 buttons := BitGetUnsigned buf w.offset (wrap32 (w.size * w.count)) } ∧
    (∀ (j : Nat) (r : List Nat) (w0 : Walk) (s0 : TGamePadState),
      j = HID_USAGE_JOYSTICK ∨ j = HID_USAGE_GAMEPAD →
      decodeLoop F buf (0x09 :: j :: 0x05 :: 0x09 :: r) w0 s0 =
        decodeLoop F buf r { w0 with state := DecodeState.GamePadButton } s0) := by
  constructor
  · rw [processItem_input F buf item 2 w s hitem, dispatch_input]
    have hne : ¬ (DecodeState.GamePadButton = DecodeState.GamePadAxis) := by decide
    simp only [inputItem, if_true, hst, if_neg hne]
  · intro j r w0 s0 hj
    rw [walk_usage_gamepad F buf j _ w0 s0 hj, walk_usage_page_buttons F buf r _ s0 rfl]

theorem input_in_button_group_witness :
    ((0x81 : Nat) &&& 0xFC = HID_INPUT ∧
      buttonGroupWalk.state = DecodeState.GamePadButton) ∧
    processItem flagBits [5, 251, 1] 0x81 2 buttonGroupWalk zeroState =
      Step.next
        { buttonGroupWalk with state := DecodeState.GamePad, offset := 24 }
        { zeroState with nbuttons := 8, buttons := 1 } :=
  ⟨⟨by decide, rfl⟩,
   (input_in_button_group flagBits [5, 251, 1] 0x81 buttonGroupWalk zeroState
      (by decide) rfl).1⟩

/-- C10: every `INPUT` item, whatever its attribute `arg` and whatever the decoder
state, lets the walk continue with the running bit offset advanced by `count * size`
(32-bit arithmetic) and size and count unchanged; consequently an X axis declared
after an uninterpreted `INPUT` item of `c` fields of `n` bits is read at bit offset
`c * n` of the report buffer. -/
theorem input_always_advances_offset (F : AxisFlags) (buf : Buffer) (item arg : Nat) (w : Walk)
    (s s0 : TGamePadState) (n c a : Nat) (hitem : item &&& 0xFC = HID_INPUT)
    (hn : n < 128) (hc : c < 128) :
    (∃ w1 s1, processItem F buf item arg w s = Step.next w1 s1 ∧
      w1.offset = wrap32 (w.offset + wrap32 (w.count * w.size)) ∧
      w1.size = w.size ∧ w1.count = w.count) ∧
    (USBGamePadDeviceDecodeReport F
      [0x09, 0x04, 0x75, n, 0x95, c, 0x81, a, 0x95, 0x01, 0x09, 0x30, 0x81, 0x02] buf s0).st.x =
        toS32 (BitGetUnsigned buf (c * n) n) := by
  constructor
  · obtain ⟨e1, e2, e3⟩ := inputItem_sizes F buf arg w s
    refine ⟨{ (inputItem F buf arg w s).1 with
                offset := wrap32 (w.offset + wrap32 (w.count * w.size)) },
      (inputItem F buf arg w s).2, ?_, rfl, e3, e2⟩
    rw [processItem_input F buf item arg w s hitem, dispatch_input]
    simp only [e1, e2, e3]
  · have hcn : c * n < 16384 := by
      have h1 : c * n ≤ 127 * 127 := Nat.mul_le_mul (by omega) (by omega)
      omega
    have hw1 : wrap32 (c * n) = c * n := Nat.mod_eq_of_lt (by omega)
    have hw2 : wrap32 (0 + c * n) = c * n := by rw [Nat.zero_add]; exact hw1
    have hw3 : wrap32 (c * n + wrap32 0) = c * n := by
      have h0 : wrap32 0 = 0 := rfl
      rw [h0, Nat.add_zero]; exact hw1
    have hx : isAxisUsage 0x30 := by decide
    unfold USBGamePadDeviceDecodeReport
    rw [walk_usage_gamepad F buf 4 _ _ _ (Or.inl rfl), walk_report_size, walk_report_count,
      walk_input, walk_report_count, walk_usage_axis F buf 0x30 _ _ _ hx, walk_input,
      decodeLoop_nil]
    · simp [inputItem, initWalk, sext8_small n hn, sext8_small c hc, sext8_small 1 (by decide),
        sext8_small 2 (by decide), axisLoop, axisValue, storeAxis, MAX_AXIS, hw1, hw2, hw3,
        HID_USAGE_X]
    · simp [inputItem, initWalk, MAX_AXIS]

theorem input_always_advances_offset_witness :
    ((0x81 : Nat) &&& 0xFC = HID_INPUT ∧ 8 < 128 ∧ 2 < 128) ∧
    (USBGamePadDeviceDecodeReport flagBits
      [0x09, 0x04, 0x75, 8, 0x95, 2, 0x81, 0x01, 0x95, 0x01, 0x09, 0x30, 0x81, 0x02]
      [0, 0, 7] zeroState).st.x = toS32 (BitGetUnsigned [0, 0, 7] (2 * 8) 8) :=
  ⟨by decide,
   (input_always_advances_offset flagBits [0, 0, 7] 0x81 0x01 initWalk zeroState zeroState 8 2
      0x01 (by decide) (by decide) (by decide)).2⟩

/-! ## Items that store nothing -/

theorem dispatch_keeps_state (F : AxisFlags) (buf : Buffer) (tag arg : Nat) (w w1 : Walk)
    (s s1 : TGamePadState) (htag : tag ≠ HID_INPUT)
    (h : dispatch F buf tag arg w s = Step.next w1 s1) : s1 = s := by
  unfold dispatch at h
  split_ifs at h <;> (injection h with _ h2; exact h2.symm)

theorem processItem_keeps_state (F : AxisFlags) (buf : Buffer) (item arg : Nat) (w w1 : Walk)
    (s s1 : TGamePadState) (htag : item &&& 0xFC ≠ HID_INPUT)
    (h : processItem F buf item arg w s = Step.next w1 s1) : s1 = s := by
  unfold processItem at h
  split_ifs at h <;> exact dispatch_keeps_state F buf _ arg _ w1 s s1 htag h

theorem input_free_keeps_state_aux (F : AxisFlags) (buf : Buffer) :
    ∀ (n : Nat) (pre : List Nat), pre.length ≤ n → HID_INPUT ∉ itemTags pre →
      ∀ (w : Walk) (s : TGamePadState), (decodeLoop F buf pre w s).st = s := by
  intro n
  induction n with
  | zero =>
    intro pre hlen _ w s
    have hnil : pre = [] := List.length_eq_zero.mp (Nat.le_zero.mp hlen)
    subst hnil
    rfl
  | succ n ih =>
    intro pre hlen hfree w s
    rcases pre with _ | ⟨item, rest⟩
    · rfl
    · rw [decodeLoop_cons]
      rw [itemTags_cons] at hfree
      cases hf : fetchArg item rest with
      | none => rfl
      | some p =>
        obtain ⟨arg, r⟩ := p
        rw [hf] at hfree
        simp only [List.mem_cons, not_or] at hfree
        simp only [stepThen]
        cases hp : processItem F buf item arg w s with
        | next w2 s2 =>
          simp only
          have hr : r.length ≤ n := by
            have h1 := fetchArg_length item rest arg r hf
            simp only [List.length_cons] at hlen
            omega
          have hs : s2 = s :=
            processItem_keeps_state F buf item arg w w2 s s2 (fun h => hfree.1 h.symm) hp
          rw [ih r hr hfree.2 w2 s2, hs]
        | abort => rfl
        | overflow => rfl

/-- A descriptor part without `INPUT` item leaves the GamePad state as it was. -/
theorem input_free_keeps_state (F : AxisFlags) (buf : Buffer) (pre : List Nat)
    (hfree : HID_INPUT ∉ itemTags pre) (w : Walk) (s : TGamePadState) :
    (decodeLoop F buf pre w s).st = s :=
  input_free_keeps_state_aux F buf pre.length pre (Nat.le_refl _) hfree w s

/-- The walk over `pre ++ item :: rest` when `pre` is walked to its end and `item` is a
`REPORT_ID` item whose argument differs from the first buffer byte: the loop is left
at `item` with the locals and the state reached after `pre`. -/
theorem decodeLoop_mismatch (F : AxisFlags) (buf : Buffer) (pre : List Nat) (item : Nat)
    (rest : List Nat) (arg : Nat) (r : List Nat) (w0 : Walk) (s0 : TGamePadState)
    (hpre : (decodeLoop F buf pre w0 s0).exit = Exit.finished)
    (hitem : item &&& 0xFC = HID_REPORT_ID)
    (hfetch : fetchArg item rest = some (arg, r))
    (hne : readByte buf 0 ≠ arg) :
    decodeLoop F buf (pre ++ item :: rest) w0 s0 =
      { exit := Exit.aborted, walk := (decodeLoop F buf pre w0 s0).walk,
        st := (decodeLoop F buf pre w0 s0).st } := by
  have hfin : decodeLoop F buf pre w0 s0 =
      { exit := Exit.finished, walk := (decodeLoop F buf pre w0 s0).walk,
        st := (decodeLoop F buf pre w0 s0).st } := by
    rw [← hpre]
  rw [decodeLoop_append F buf pre (item :: rest) w0 s0 _ _ hfin, decodeLoop_cons, hfetch]
  have hne2 : BitGetUnsigned buf 0 8 ≠ arg := by
    rw [BitGetUnsigned_first_byte]; exact hne
  simp only [stepThen, processItem, hitem, if_true, if_pos hne2]

/-! ## Claims on whole descriptors -/

/-- C5 (evaluation of the code): for the descriptor `joystickXYButtons` (X and Y
declared one after the other, each with `REPORT_COUNT 1` and its own `INPUT` item,
then eight buttons) and the buffer `[0x05, 0xFB, 0x01]` the walk runs to the end and
stores the second field, -5, into `x` again: `x = -5`, `y` keeps its prior value 0,
only the X presence flag is set; `buttons = 1` and `nbuttons = 8`. -/
theorem joystick_xy_second_input_overwrites_x :
    USBGamePadDeviceDecodeReport flagBits joystickXYButtons [0x05, 0xFB, 0x01] zeroState =
      { exit := Exit.finished,
        walk := { offset := 24, size := 1, count := 8, index := 2,
                  map := [0x30, 0x31, 4294967295, 4294967295, 4294967295, 4294967295],
                  max := 1, min := 0, state := DecodeState.GamePad },
        st := { zeroState with x := -5, y := 0, minimum := -127, maximum := 127,
                               flags := flagBits.FLAG_X, nbuttons := 8, buttons := 1 } } := by
  decide!

/-- The values that C5 names are obtained when X and Y are declared together and read
by one `INPUT` item with `REPORT_COUNT 2`. -/
theorem joystick_xy_one_group :
    (USBGamePadDeviceDecodeReport flagBits joystickXYGroupButtons [0x05, 0xFB, 0x01]
        zeroState).st =
      { zeroState with x := 5, y := -5, minimum := -127, maximum := 127,
                       flags := flagBits.FLAG_X ||| flagBits.FLAG_Y,
                       nbuttons := 8, buttons := 1 } := by
  decide!

/-- C6 (evaluation of the code): for the descriptor `reportId128`, whose `REPORT_ID`
item carries `0x80` in a one-byte payload, and the buffer `[0x80, 0x05]`, whose first
byte is `0x80`, the item argument is the sign-extended `0xFFFFFF80`, the loop is left
at the `REPORT_ID` item, the offset is still 0 and `x` is not stored. -/
theorem report_id_128_aborts :
    readByte [0x80, 0x05] 0 = 0x80 ∧
    fetchArg 0x85 [0x80] = some (4294967168, []) ∧
    USBGamePadDeviceDecodeReport flagBits reportId128 [0x80, 0x05] zeroState =
      { exit := Exit.aborted,
        walk := { initWalk with state := DecodeState.GamePad },
        st := zeroState } := by
  decide

/-- The same report id `0x80` carried in a two-byte payload, whose low byte the code
masks with `0xFF`, matches the buffer `[0x80, 0x05]`: the walk runs to the end with the
offset advanced past the id byte and `x = 5` stored. -/
theorem report_id_128_wide_payload_matches :
    fetchArg 0x86 [0x80, 0x00] = some (0x80, []) ∧
    (USBGamePadDeviceDecodeReport flagBits reportId128Wide [0x80, 0x05] zeroState).exit =
      Exit.finished ∧
    (USBGamePadDeviceDecodeReport flagBits reportId128Wide [0x80, 0x05] zeroState).walk.offset =
      16 ∧
    (USBGamePadDeviceDecodeReport flagBits reportId128Wide [0x80, 0x05] zeroState).st.x = 5 := by
  decide

/-- For a report id below 128 in a one-byte payload that equals the first buffer byte,
the walk goes on after the `REPORT_ID` item with the offset advanced by 8. -/
theorem report_id_match_continues (F : AxisFlags) (buf : Buffer) (v : Nat) (r : List Nat)
    (w : Walk) (s : TGamePadState) (hv : v < 128) (hbuf : readByte buf 0 = v) :
    decodeLoop F buf (0x85 :: v :: r) w s =
      decodeLoop F buf r { w with offset := wrap32 (w.offset + 8) } s := by
  rw [decodeLoop_item1 F buf 0x85 v r w s (by decide)]
  have h1 : (0x85 : Nat) &&& 0xFC = HID_REPORT_ID := by decide
  have h2 : ¬ (BitGetUnsigned buf 0 8 ≠ sext8 v) := by
    rw [BitGetUnsigned_first_byte, sext8_small v hv, hbuf]; simp
  simp [stepThen, processItem, h1, h2, dispatch, HID_REPORT_ID, HID_USAGE_PAGE, HID_USAGE,
    HID_LOGICAL_MIN, HID_PHYSICAL_MIN, HID_LOGICAL_MAX, HID_PHYSICAL_MAX, HID_REPORT_SIZE,
    HID_REPORT_COUNT, HID_INPUT]

/-- For a report id from 128 to 255 in a one-byte payload the loop is left at the
`REPORT_ID` item whatever the buffer holds, also when its first byte equals the id. -/
theorem report_id_high_always_aborts (F : AxisFlags) (buf : Buffer) (v : Nat) (r : List Nat)
    (w : Walk) (s : TGamePadState) (hv : 128 ≤ v) (hv2 : v < 256) :
    decodeLoop F buf (0x85 :: v :: r) w s = { exit := Exit.aborted, walk := w, st := s } := by
  rw [decodeLoop_item1 F buf 0x85 v r w s (by decide)]
  have h1 : (0x85 : Nat) &&& 0xFC = HID_REPORT_ID := by decide
  have hb : readByte buf 0 < 256 := Nat.mod_lt _ (by norm_num)
  have h2 : BitGetUnsigned buf 0 8 ≠ sext8 v := by
    rw [BitGetUnsigned_first_byte]
    unfold sext8
    have h3 : v % 256 = v := Nat.mod_eq_of_lt hv2
    rw [h3, if_neg (by omega)]
    omega
  simp only [stepThen, processItem, h1, if_true, if_pos h2]

/-- C7: when the walk reaches, after a part `pre` processed to its end, a `REPORT_ID`
item whose argument differs from the first buffer byte, it stops there: whatever
bytes `rest` hold after the item prefix (the payload and every later item, matching
`REPORT_ID` items included), the pass ends aborted and the GamePad state is the state
obtained by decoding `pre` alone. -/
theorem walk_stops_at_report_id_mismatch (F : AxisFlags) (buf : Buffer) (pre : List Nat)
    (item : Nat) (rest : List Nat) (arg : Nat) (r : List Nat) (s0 : TGamePadState)
    (hpre : (USBGamePadDeviceDecodeReport F pre buf s0).exit = Exit.finished)
    (hitem : item &&& 0xFC = HID_REPORT_ID)
    (hfetch : fetchArg item rest = some (arg, r))
    (hne : readByte buf 0 ≠ arg) :
    (USBGamePadDeviceDecodeReport F (pre ++ item :: rest) buf s0).exit = Exit.aborted ∧
    (USBGamePadDeviceDecodeReport F (pre ++ item :: rest) buf s0).st =
      (USBGamePadDeviceDecodeReport F pre buf s0).st := by
  unfold USBGamePadDeviceDecodeReport at hpre ⊢
  rw [decodeLoop_mismatch F buf pre item rest arg r initWalk s0 hpre hitem hfetch hne]
  exact ⟨rfl, rfl⟩

theorem walk_stops_at_report_id_mismatch_witness :
    ((USBGamePadDeviceDecodeReport flagBits [0x09, 0x04] [2, 7] zeroState).exit = Exit.finished ∧
      (0x85 : Nat) &&& 0xFC = HID_REPORT_ID ∧
      fetchArg 0x85 [0x01, 0x85, 0x02, 0x75, 0x08, 0x95, 0x01, 0x09, 0x30, 0x81, 0x02] =
        some (1, [0x85, 0x02, 0x75, 0x08, 0x95, 0x01, 0x09, 0x30, 0x81, 0x02]) ∧
      readByte [2, 7] 0 ≠ 1) ∧
    ((USBGamePadDeviceDecodeReport flagBits
        ([0x09, 0x04] ++ 0x85 :: [0x01, 0x85, 0x02, 0x75, 0x08, 0x95, 0x01, 0x09, 0x30, 0x81, 0x02])
        [2, 7] zeroState).exit = Exit.aborted ∧
     (USBGamePadDeviceDecodeReport flagBits
        ([0x09, 0x04] ++ 0x85 :: [0x01, 0x85, 0x02, 0x75, 0x08, 0x95, 0x01, 0x09, 0x30, 0x81, 0x02])
        [2, 7] zeroState).st =
      (USBGamePadDeviceDecodeReport flagBits [0x09, 0x04] [2, 7] zeroState).st) :=
  ⟨by decide,
   walk_stops_at_report_id_mismatch flagBits [2, 7] [0x09, 0x04] 0x85
     [0x01, 0x85, 0x02, 0x75, 0x08, 0x95, 0x01, 0x09, 0x30, 0x81, 0x02] 1
     [0x85, 0x02, 0x75, 0x08, 0x95, 0x01, 0x09, 0x30, 0x81, 0x02] zeroState
     (by decide) (by decide) (by decide) (by decide)⟩

/-- C8, as stated, fails: for the descriptor `twoReportIds` (report 1 carries X, report 2
carries Y) and the buffer `[2, 7]`, whose first byte is 2, the loop is left at the
`REPORT_ID (1)` item; the Y field of the id-2 branch, 7 in the buffer, is not stored
and the state is the prior state. -/
theorem second_report_id_branch_not_decoded :
    readByte [2, 7] 0 = 2 ∧ BitGetUnsigned [2, 7] 8 8 = 7 ∧
    (USBGamePadDeviceDecodeReport flagBits twoReportIds [2, 7] zeroState).exit = Exit.aborted ∧
    (USBGamePadDeviceDecodeReport flagBits twoReportIds [2, 7] zeroState).st = zeroState ∧
    (USBGamePadDeviceDecodeReport flagBits twoReportIds [2, 7] zeroState).st.y ≠ 7 := by
  decide

/-- C8 (amended): for a descriptor with two `REPORT_ID` branches, id 1 followed by id 2,
whose items before `REPORT_ID (1)` are processed to the end and hold no `INPUT` item,
and a report buffer whose first byte is 2, the walk stops at the `REPORT_ID (1)` item
and the whole GamePad state is untouched: neither the fields of the id-1 branch nor
those of the id-2 branch are updated. -/
theorem report_id_1_then_2_stops_at_first (F : AxisFlags) (buf : Buffer)
    (pre branch1 branch2 : List Nat) (s0 : TGamePadState)
    (hpre : (USBGamePadDeviceDecodeReport F pre buf s0).exit = Exit.finished)
    (hfree : HID_INPUT ∉ itemTags pre)
    (hbuf : readByte buf 0 = 2) :
    USBGamePadDeviceDecodeReport F
        (pre ++ 0x85 :: 0x01 :: (branch1 ++ 0x85 :: 0x02 :: branch2)) buf s0 =
      { exit := Exit.aborted, walk := (USBGamePadDeviceDecodeReport F pre buf s0).walk,
        st := s0 } := by
  unfold USBGamePadDeviceDecodeReport at hpre ⊢
  have hne : readByte buf 0 ≠ 1 := by rw [hbuf]; decide
  rw [decodeLoop_mismatch F buf pre 0x85 (0x01 :: (branch1 ++ 0x85 :: 0x02 :: branch2)) 1
    (branch1 ++ 0x85 :: 0x02 :: branch2) initWalk s0 hpre (by decide) (by rfl) hne,
    input_free_keeps_state F buf pre hfree]

theorem report_id_1_then_2_stops_at_first_witness :
    ((USBGamePadDeviceDecodeReport flagBits [0x05, 0x01, 0x09, 0x04, 0xA1, 0x01] [2, 7]
        zeroState).exit = Exit.finished ∧
      HID_INPUT ∉ itemTags [0x05, 0x01, 0x09, 0x04, 0xA1, 0x01] ∧
      readByte [2, 7] 0 = 2) ∧
    USBGamePadDeviceDecodeReport flagBits
        ([0x05, 0x01, 0x09, 0x04, 0xA1, 0x01] ++ 0x85 :: 0x01 ::
          ([0x09, 0x30, 0x75, 0x08, 0x95, 0x01, 0x81, 0x02] ++ 0x85 :: 0x02 ::
            [0x09, 0x31, 0x81, 0x02, 0xC0])) [2, 7] zeroState =
      { exit := Exit.aborted,
        walk := (USBGamePadDeviceDecodeReport flagBits [0x05, 0x01, 0x09, 0x04, 0xA1, 0x01]
          [2, 7] zeroState).walk,
        st := zeroState } :=
  ⟨by decide,
   report_id_1_then_2_stops_at_first flagBits [2, 7] [0x05, 0x01, 0x09, 0x04, 0xA1, 0x01]
     [0x09, 0x30, 0x75, 0x08, 0x95, 0x01, 0x81, 0x02] [0x09, 0x31, 0x81, 0x02, 0xC0] zeroState
     (by decide) (by decide) (by decide)⟩

/-- C9, as stated, fails: for the descriptor `twoReportIds` and the buffer `[1, 7]` the
pass is aborted by the `REPORT_ID (2)` item, which does not match the first buffer
byte, after the id-1 branch has stored `x = 7`, the range and the X flag: the state
after the pass differs from the state before it. -/
theorem aborted_pass_keeps_earlier_stores :
    (USBGamePadDeviceDecodeReport flagBits twoReportIds [1, 7] zeroState).exit = Exit.aborted ∧
    (USBGamePadDeviceDecodeReport flagBits twoReportIds [1, 7] zeroState).st =
      { zeroState with x := 7, maximum := 127, flags := flagBits.FLAG_X } ∧
    (USBGamePadDeviceDecodeReport flagBits twoReportIds [1, 7] zeroState).st ≠ zeroState := by
  decide

/-- C9 (amended): for every report buffer and prior state, when a decode pass is aborted
by a `REPORT_ID` item that does not match the first buffer byte and no `INPUT` item
precedes that item in the descriptor (the preceding items `pre` being processed to the
end), the GamePad state after the pass is identical to the state before the pass. -/
theorem aborted_pass_without_input_keeps_state (F : AxisFlags) (buf : Buffer) (pre : List Nat)
    (item : Nat) (rest : List Nat) (arg : Nat) (r : List Nat) (s0 : TGamePadState)
    (hpre : (USBGamePadDeviceDecodeReport F pre buf s0).exit = Exit.finished)
    (hfree : HID_INPUT ∉ itemTags pre)
    (hitem : item &&& 0xFC = HID_REPORT_ID)
    (hfetch : fetchArg item rest = some (arg, r))
    (hne : readByte buf 0 ≠ arg) :
    (USBGamePadDeviceDecodeReport F (pre ++ item :: rest) buf s0).exit = Exit.aborted ∧
    (USBGamePadDeviceDecodeReport F (pre ++ item :: rest) buf s0).st = s0 := by
  unfold USBGamePadDeviceDecodeReport at hpre ⊢
  rw [decodeLoop_mismatch F buf pre item rest arg r initWalk s0 hpre hitem hfetch hne,
    input_free_keeps_state F buf pre hfree]
  exact ⟨rfl, rfl⟩

theorem aborted_pass_without_input_keeps_state_witness :
    ((USBGamePadDeviceDecodeReport flagBits [0x05, 0x01, 0x09, 0x04, 0xA1, 0x01, 0x15, 0x81]
        [3, 7] zeroState).exit = Exit.finished ∧
      HID_INPUT ∉ itemTags [0x05, 0x01, 0x09, 0x04, 0xA1, 0x01, 0x15, 0x81] ∧
      (0x86 : Nat) &&& 0xFC = HID_REPORT_ID ∧
      fetchArg 0x86 [0x04, 0x00, 0x09, 0x30, 0x75, 0x08, 0x95, 0x01, 0x81, 0x02] =
        some (4, [0x09, 0x30, 0x75, 0x08, 0x95, 0x01, 0x81, 0x02]) ∧
      readByte [3, 7] 0 ≠ 4) ∧
    ((USBGamePadDeviceDecodeReport flagBits
        ([0x05, 0x01, 0x09, 0x04, 0xA1, 0x01, 0x15, 0x81] ++ 0x86 ::
          [0x04, 0x00, 0x09, 0x30, 0x75, 0x08, 0x95, 0x01, 0x81, 0x02])
        [3, 7] zeroState).exit = Exit.aborted ∧
     (USBGamePadDeviceDecodeReport flagBits
        ([0x05, 0x01, 0x09, 0x04, 0xA1, 0x01, 0x15, 0x81] ++ 0x86 ::
          [0x04, 0x00, 0x09, 0x30, 0x75, 0x08, 0x95, 0x01, 0x81, 0x02])
        [3, 7] zeroState).st = zeroState) :=
  ⟨by decide,
   aborted_pass_without_input_keeps_state flagBits [3, 7]
     [0x05, 0x01, 0x09, 0x04, 0xA1, 0x01, 0x15, 0x81] 0x86
     [0x04, 0x00, 0x09, 0x30, 0x75, 0x08, 0x95, 0x01, 0x81, 0x02] 4
     [0x09, 0x30, 0x75, 0x08, 0x95, 0x01, 0x81, 0x02] zeroState
     (by decide) (by decide) (by decide) (by decide) (by decide)⟩

/-! ## One axis group -/

theorem setUsages_length (us : List Nat) : ∀ (map : List Nat) (n : Nat),
    (setUsages map n us).length = map.length := by
  induction us with
  | nil => intro map n; rfl
  | cons u t ih => intro map n; simp [setUsages, ih]

theorem getD_setUsages_lt (d : Nat) (us : List Nat) : ∀ (map : List Nat) (n i : Nat), i < n →
    (setUsages map n us).getD i d = map.getD i d := by
  induction us with
  | nil => intro map n i _; rfl
  | cons u t ih =>
    intro map n i hi
    have hne : ¬ n = i := by omega
    simp only [setUsages]
    rw [ih (map.set n u) (n + 1) i (by omega)]
    simp [List.getD_eq_getElem?_getD, List.getElem?_set_ne hne]

theorem getD_setUsages (d : Nat) (us : List Nat) : ∀ (map : List Nat) (n i : Nat),
    n + us.length ≤ map.length → i < us.length →
    (setUsages map n us).getD (n + i) d = us.getD i d := by
  induction us with
  | nil => intro map n i _ hi; simp at hi
  | cons u t ih =>
    intro map n i hlen hi
    simp only [List.length_cons] at hlen hi
    simp only [setUsages]
    rcases i with _ | i
    · show (setUsages (map.set n u) (n + 1) t).getD n d = _
      rw [getD_setUsages_lt d t (map.set n u) (n + 1) n (by omega)]
      have hn : n < map.length := by omega
      simp [List.getD_eq_getElem?_getD, List.getElem?_set_self hn]
    · have he : n + (i + 1) = (n + 1) + i := by omega
      rw [he, ih (map.set n u) (n + 1) i (by simp; omega) (by omega)]
      simp

theorem walk_usageItems (F : AxisFlags) (buf : Buffer) (r : List Nat) (s : TGamePadState)
    (us : List Nat) : ∀ (w : Walk), (∀ u ∈ us, isAxisUsage u) → w.index + us.length ≤ MAX_AXIS →
    us ≠ [] → (w.state = DecodeState.GamePad ∨ w.state = DecodeState.GamePadAxis) →
    decodeLoop F buf (usageItems us ++ r) w s =
      decodeLoop F buf r
        { w with map := setUsages w.map w.index us, index := w.index + us.length,
                 state := DecodeState.GamePadAxis } s := by
  induction us with
  | nil => intro w _ _ hne _; exact absurd rfl hne
  | cons u t ih =>
    intro w hax hidx _ hst
    simp only [List.length_cons] at hidx
    have hu : isAxisUsage u := hax u (List.mem_cons_self u t)
    have ht : ∀ v ∈ t, isAxisUsage v := fun v hv => hax v (List.mem_cons_of_mem u hv)
    have hstate : (if w.state = DecodeState.GamePad then DecodeState.GamePadAxis else w.state) =
        DecodeState.GamePadAxis := by
      rcases hst with h | h <;> simp [h]
    show decodeLoop F buf (0x09 :: u :: (usageItems t ++ r)) w s = _
    rw [walk_usage_axis F buf u _ w s hu (by omega), hstate]
    rcases t with _ | ⟨v, t2⟩
    · simp [usageItems, setUsages]
    · rw [ih _ ht (by simp only [List.length_cons] at hidx ⊢; omega) (by simp) (Or.inr rfl)]
      simp only [setUsages, List.length_cons]
      have he : w.index + 1 + (t2.length + 1) = w.index + (t2.length + 1 + 1) := by omega
      rw [he]

theorem axisOf_storeAxis (F : AxisFlags) (u v : Nat) (value : Int) (s : TGamePadState)
    (hu : isAxisUsage u) (hv : isAxisUsage v) :
    axisOf (storeAxis F u value s) v = if v = u then value else axisOf s v := by
  unfold isAxisUsage at hu hv
  rcases hu with h | h | h | h | h | h <;> rcases hv with g | g | g | g | g | g <;>
    subst h <;> subst g <;> rfl

theorem flags_storeAxis (F : AxisFlags) (u : Nat) (value : Int) (s : TGamePadState)
    (hu : isAxisUsage u) :
    (storeAxis F u value s).flags = s.flags ||| flagOf F u := by
  unfold isAxisUsage at hu
  rcases hu with h | h | h | h | h | h <;> subst h <;> rfl

theorem and_or_keeps (a g f : Nat) (h : a &&& f = f) : (a ||| g) &&& f = f := by
  apply Nat.eq_of_testBit_eq
  intro i
  have hi : (a &&& f).testBit i = f.testBit i := by rw [h]
  rw [Nat.testBit_and] at hi
  rw [Nat.testBit_and, Nat.testBit_or]
  cases ha : a.testBit i <;> cases hf : f.testBit i <;> cases hg : g.testBit i <;>
    simp_all

theorem or_and_self (a f : Nat) : (a ||| f) &&& f = f := by
  apply Nat.eq_of_testBit_eq
  intro i
  rw [Nat.testBit_and, Nat.testBit_or]
  cases a.testBit i <;> cases f.testBit i <;> rfl

theorem flags_storeAxis_keeps (F : AxisFlags) (u : Nat) (value : Int) (s : TGamePadState)
    (f : Nat) (h : s.flags &&& f = f) : (storeAxis F u value s).flags &&& f = f := by
  unfold storeAxis
  split_ifs <;> first
    | exact and_or_keeps _ _ _ h
    | exact h

theorem axisLoop_flags_keep (F : AxisFlags) (buf : Buffer) (w : Walk) (f : Nat) :
    ∀ (n i0 : Nat) (s : TGamePadState), s.flags &&& f = f →
      (axisLoop F buf w n i0 s).flags &&& f = f := by
  intro n
  induction n with
  | zero => intro i0 s h; exact h
  | succ n ih =>
    intro i0 s h
    exact ih (i0 + 1) _ (flags_storeAxis_keeps F _ _ s f h)

theorem axisLoop_other (F : AxisFlags) (buf : Buffer) (w : Walk) (u : Nat) (hu : isAxisUsage u) :
    ∀ (n i0 : Nat) (s : TGamePadState),
      (∀ i, i0 ≤ i → i < i0 + n →
        isAxisUsage (w.map.getD i 4294967295) ∧ w.map.getD i 4294967295 ≠ u) →
      axisOf (axisLoop F buf w n i0 s) u = axisOf s u := by
  intro n
  induction n with
  | zero => intro i0 s _; rfl
  | succ n ih =>
    intro i0 s h
    have h0 := h i0 (Nat.le_refl _) (by omega)
    show axisOf (axisLoop F buf w n (i0 + 1) _) u = _
    rw [ih (i0 + 1) _ (fun i hi1 hi2 => h i (by omega) (by omega)),
      axisOf_storeAxis F _ u _ s h0.1 hu, if_neg (fun e => h0.2 e.symm)]

/-- After the axis loop over slots `i0 .. i0 + n - 1`, whose map entries are distinct
axis usages, the axis named by slot `i` holds the value read for `i` and its presence
flag is set. -/
theorem axisLoop_stores (F : AxisFlags) (buf : Buffer) (w : Walk) :
    ∀ (n i0 : Nat) (s : TGamePadState),
      (∀ i, i0 ≤ i → i < i0 + n → isAxisUsage (w.map.getD i 4294967295)) →
      (∀ i i2, i0 ≤ i → i < i2 → i2 < i0 + n →
        w.map.getD i 4294967295 ≠ w.map.getD i2 4294967295) →
      ∀ i, i0 ≤ i → i < i0 + n →
        axisOf (axisLoop F buf w n i0 s) (w.map.getD i 4294967295) = axisValue buf w i ∧
        (axisLoop F buf w n i0 s).flags &&& flagOf F (w.map.getD i 4294967295) =
          flagOf F (w.map.getD i 4294967295) := by
  intro n
  induction n with
  | zero => intro i0 s _ _ i h1 h2; omega
  | succ n ih =>
    intro i0 s hax hdist i h1 h2
    have hax0 := hax i0 (Nat.le_refl _) (by omega)
    by_cases hi : i = i0
    · subst hi
      constructor
      · show axisOf (axisLoop F buf w n (i + 1) _) _ = _
        rw [axisLoop_other F buf w _ hax0 n (i + 1) _
            (fun k hk1 hk2 => ⟨hax k (by omega) (by omega),
              fun e => hdist i k (Nat.le_refl _) (by omega) (by omega) e.symm⟩),
          axisOf_storeAxis F _ _ _ s hax0 hax0, if_pos rfl]
      · show (axisLoop F buf w n (i + 1) _).flags &&& _ = _
        apply axisLoop_flags_keep
        rw [flags_storeAxis F _ _ s hax0]
        exact or_and_self _ _
    · exact ih (i0 + 1) _ (fun k hk1 hk2 => hax k (by omega) (by omega))
        (fun k k2 hk1 hk2 hk3 => hdist k k2 (by omega) hk2 (by omega)) i (by omega) (by omega)

theorem sext8_byteOfS8_neg (m : Int) (h1 : -128 ≤ m) (h2 : m ≤ 127) :
    2147483648 ≤ sext8 (byteOfS8 m) ↔ m < 0 := by
  unfold sext8 byteOfS8
  by_cases hm : m < 0
  · have e : (m % 256).toNat = (m + 256).toNat := by
      congr 1; omega
    rw [e]
    have e2 : (m + 256).toNat % 256 = (m + 256).toNat := Nat.mod_eq_of_lt (by omega)
    rw [e2, if_neg (by omega)]
    constructor
    · intro _; exact hm
    · intro _; omega
  · have e : (m % 256).toNat = m.toNat := by
      congr 1; omega
    rw [e]
    have e2 : m.toNat % 256 = m.toNat := Nat.mod_eq_of_lt (by omega)
    rw [e2, if_pos (by omega)]
    constructor
    · intro h; omega
    · intro h; exact absurd h hm

theorem toS32_small (n : Nat) (h : n < 2147483648) : toS32 n = (n : Int) := by
  unfold toS32
  have e : n % 4294967296 = n := Nat.mod_eq_of_lt (by omega)
  rw [e, if_pos h]

/-- C3: for a descriptor made of a Joystick or Gamepad `USAGE`, `k` distinct axis `USAGE`
items `us` (`1 <= k <= MAX_AXIS`), a `LOGICAL_MINIMUM m`, a `REPORT_SIZE s` (`1 <= s <= 8`,
no field crossing a byte), `REPORT_COUNT k` and one `INPUT` item with attribute `0x02`,
the walk runs to the end and, for every `i < k`, the axis named by `us[i]` holds the
`s`-bit field at bit offset `i * s`, read by `BitGetSigned` when `m < 0` and by
`BitGetUnsigned` otherwise, and the presence flag of that axis is set. -/
theorem axis_group_stores_fields (F : AxisFlags) (buf : Buffer) (j : Nat) (us : List Nat)
    (m : Int) (s : Nat) (s0 : TGamePadState)
    (hj : j = HID_USAGE_JOYSTICK ∨ j = HID_USAGE_GAMEPAD)
    (hk1 : 1 ≤ us.length) (hk6 : us.length ≤ MAX_AXIS)
    (hax : ∀ u ∈ us, isAxisUsage u) (hnd : us.Nodup)
    (hm1 : -128 ≤ m) (hm2 : m ≤ 127) (hs1 : 1 ≤ s) (hs8 : s ≤ 8)
    (hin : ∀ i, i < us.length → (i * s) % 8 + s ≤ 8) :
    (USBGamePadDeviceDecodeReport F (axisGroupDescriptor j us (byteOfS8 m) s) buf s0).exit =
      Exit.finished ∧
    ∀ i, i < us.length →
      axisOf (USBGamePadDeviceDecodeReport F (axisGroupDescriptor j us (byteOfS8 m) s) buf s0).st
          (us.getD i 0) =
        (if m < 0 then BitGetSigned buf (i * s) s
         else ((BitGetUnsigned buf (i * s) s : Nat) : Int)) ∧
      (USBGamePadDeviceDecodeReport F (axisGroupDescriptor j us (byteOfS8 m) s) buf s0).st.flags &&&
          flagOf F (us.getD i 0) = flagOf F (us.getD i 0) := by
  have hk6n : us.length ≤ 6 := hk6
  have hne : us ≠ [] := by
    intro h; rw [h] at hk1; simp at hk1
  have hklt : us.length < 128 := by omega
  have hslt : s < 128 := by omega
  have hmin : min us.length MAX_AXIS = us.length := Nat.min_eq_left hk6
  unfold USBGamePadDeviceDecodeReport axisGroupDescriptor
  rw [walk_usage_gamepad F buf j _ _ _ hj,
    walk_usageItems F buf _ s0 us _ hax (by simpa [initWalk] using hk6) hne (Or.inl rfl),
    walk_logical_min, walk_report_size, walk_report_count, walk_input, decodeLoop_nil]
  refine ⟨rfl, ?_⟩
  intro i hi
  simp only [sext8_small 2 (by decide), sext8_small s hslt, sext8_small us.length hklt,
    inputItem, if_true, hmin]
  -- the map entries of the slots 0 .. k-1 are the usages
  have hmap : ∀ t, t < us.length →
      (setUsages initWalk.map initWalk.index us).getD t 4294967295 = us.getD t 0 := by
    intro t ht
    have h0 := getD_setUsages 4294967295 us initWalk.map 0 t (by simpa [initWalk] using hk6n) ht
    rw [Nat.zero_add] at h0
    have h1 : initWalk.index = 0 := rfl
    rw [h1, h0, List.getD_eq_getElem us 4294967295 ht, List.getD_eq_getElem us 0 ht]
  have hgetax : ∀ t, t < us.length → isAxisUsage (us.getD t 0) := by
    intro t ht
    rw [List.getD_eq_getElem us 0 ht]
    exact hax _ (List.getElem_mem ht)
  have hdist : ∀ t t2, t < t2 → t2 < us.length → us.getD t 0 ≠ us.getD t2 0 := by
    intro t t2 h1 h2 e
    rw [List.getD_eq_getElem us 0 (by omega), List.getD_eq_getElem us 0 h2] at e
    have := (List.Nodup.getElem_inj_iff hnd).mp e
    omega
  have key := axisLoop_stores F buf
    { offset := initWalk.offset, size := s, count := us.length,
      index := initWalk.index + us.length,
      map := setUsages initWalk.map initWalk.index us, max := initWalk.max,
      min := sext8 (byteOfS8 m), state := DecodeState.GamePadAxis }
    us.length 0
    { s0 with minimum := toS32 (sext8 (byteOfS8 m)), maximum := toS32 initWalk.max }
    (fun t _ ht => by
      have ht2 : t < us.length := by omega
      show isAxisUsage ((setUsages initWalk.map initWalk.index us).getD t 4294967295)
      rw [hmap t ht2]; exact hgetax t ht2)
    (fun t t2 _ h1 h2 => by
      have ht2 : t2 < us.length := by omega
      show (setUsages initWalk.map initWalk.index us).getD t 4294967295 ≠
        (setUsages initWalk.map initWalk.index us).getD t2 4294967295
      rw [hmap t (by omega), hmap t2 ht2]; exact hdist t t2 h1 ht2)
    i (Nat.zero_le _) (by omega)
  simp only [hmap i hi] at key
  refine ⟨?_, key.2⟩
  rw [key.1]
  -- the value read for slot i
  have his : i * s ≤ 5 * 8 := Nat.mul_le_mul (by omega) hs8
  have hw0 : wrap32 (i * s) = i * s := Nat.mod_eq_of_lt (by omega)
  have hoff : initWalk.offset = 0 := rfl
  have hlt := BitGetUnsigned_in_byte_lt buf (i * s) s hs1 (hin i hi) (by omega)
  have hpow : 2 ^ s ≤ 2 ^ 8 := Nat.pow_le_pow_right (by norm_num) hs8
  have hsmall : BitGetUnsigned buf (i * s) s < 2147483648 := by
    have h256 : (2 : Nat) ^ 8 = 256 := by norm_num
    omega
  simp only [axisValue, hoff, Nat.zero_add, hw0]
  by_cases hneg : m < 0
  · rw [if_pos hneg, if_pos ((sext8_byteOfS8_neg m hm1 hm2).mpr hneg)]
  · rw [if_neg hneg, if_neg (fun h => hneg ((sext8_byteOfS8_neg m hm1 hm2).mp h)),
      toS32_small _ hsmall]

theorem axis_group_stores_fields_witness :
    ((4 = HID_USAGE_JOYSTICK ∨ 4 = HID_USAGE_GAMEPAD) ∧
      1 ≤ [0x31, 0x30].length ∧ [0x31, 0x30].length ≤ MAX_AXIS ∧
      (∀ u ∈ [0x31, 0x30], isAxisUsage u) ∧ [0x31, 0x30].Nodup ∧
      (-128 : Int) ≤ -127 ∧ (-127 : Int) ≤ 127 ∧ 1 ≤ 8 ∧ 8 ≤ 8 ∧
      (∀ i, i < [0x31, 0x30].length → (i * 8) % 8 + 8 ≤ 8)) ∧
    axisOf (USBGamePadDeviceDecodeReport flagBits
        (axisGroupDescriptor 4 [0x31, 0x30] (byteOfS8 (-127)) 8) [0x05, 0xFB] zeroState).st
        ([0x31, 0x30].getD 1 0) =
      (if (-127 : Int) < 0 then BitGetSigned [0x05, 0xFB] (1 * 8) 8
       else ((BitGetUnsigned [0x05, 0xFB] (1 * 8) 8 : Nat) : Int)) :=
  ⟨by decide,
   ((axis_group_stores_fields flagBits [0x05, 0xFB] 4 [0x31, 0x30] (-127) 8 zeroState
      (by decide) (by decide) (by decide) (by decide) (by decide) (by decide) (by decide)
      (by decide) (by decide) (by decide)).2 1 (by decide)).1⟩

/-! ## The items of a descriptor -/

theorem items_cons (item : Nat) (rest : List Nat) :
    items (item :: rest) =
      match fetchArg item rest with
      | none => []
      | some (arg, r) => (item &&& 0xFC, arg) :: items r := by
  rcases rest with _ | ⟨b0, _ | ⟨b1, _ | ⟨b2, _ | ⟨b3, r⟩⟩⟩⟩ <;>
  · show (ite _ _ _) = _
    unfold fetchArg
    split_ifs <;> rfl

theorem wellFormed_cons (item : Nat) (rest : List Nat) :
    wellFormed (item :: rest) =
      match fetchArg item rest with
      | none => false
      | some (_, r) => wellFormed r := by
  rcases rest with _ | ⟨b0, _ | ⟨b1, _ | ⟨b2, _ | ⟨b3, r⟩⟩⟩⟩ <;>
  · show (ite _ _ _) = _
    unfold fetchArg
    split_ifs <;> rfl

/-- An invariant of the locals and the state that every permitted item preserves holds
at the end of the walk over a descriptor all of whose items are permitted. -/
theorem decodeLoop_invariant_aux (F : AxisFlags) (buf : Buffer)
    (I : Walk → TGamePadState → Prop) (ok : Nat → Nat → Prop)
    (hstep : ∀ (item arg : Nat) (w : Walk) (s : TGamePadState) (w1 : Walk) (s1 : TGamePadState),
      ok (item &&& 0xFC) arg → I w s → processItem F buf item arg w s = Step.next w1 s1 →
      I w1 s1) :
    ∀ (n : Nat) (desc : List Nat), desc.length ≤ n → (∀ p ∈ items desc, ok p.1 p.2) →
      ∀ (w : Walk) (s : TGamePadState), I w s →
        I (decodeLoop F buf desc w s).walk (decodeLoop F buf desc w s).st := by
  intro n
  induction n with
  | zero =>
    intro desc hlen _ w s hI
    have hnil : desc = [] := List.length_eq_zero.mp (Nat.le_zero.mp hlen)
    subst hnil
    exact hI
  | succ n ih =>
    intro desc hlen hok w s hI
    rcases desc with _ | ⟨item, rest⟩
    · exact hI
    · rw [decodeLoop_cons]
      rw [items_cons] at hok
      cases hf : fetchArg item rest with
      | none => exact hI
      | some p =>
        obtain ⟨arg, r⟩ := p
        rw [hf] at hok
        simp only [stepThen]
        cases hp : processItem F buf item arg w s with
        | next w2 s2 =>
          simp only
          have hr : r.length ≤ n := by
            have h1 := fetchArg_length item rest arg r hf
            simp only [List.length_cons] at hlen
            omega
          have hI2 : I w2 s2 :=
            hstep item arg w s w2 s2 (hok (item &&& 0xFC, arg) (List.mem_cons_self _ _)) hI hp
          exact ih r hr (fun q hq => hok q (List.mem_cons_of_mem _ hq)) w2 s2 hI2
        | abort => exact hI
        | overflow => exact hI

theorem decodeLoop_invariant (F : AxisFlags) (buf : Buffer)
    (I : Walk → TGamePadState → Prop) (ok : Nat → Nat → Prop)
    (hstep : ∀ (item arg : Nat) (w : Walk) (s : TGamePadState) (w1 : Walk) (s1 : TGamePadState),
      ok (item &&& 0xFC) arg → I w s → processItem F buf item arg w s = Step.next w1 s1 →
      I w1 s1)
    (desc : List Nat) (hok : ∀ p ∈ items desc, ok p.1 p.2) (w : Walk) (s : TGamePadState)
    (hI : I w s) :
    I (decodeLoop F buf desc w s).walk (decodeLoop F buf desc w s).st :=
  decodeLoop_invariant_aux F buf I ok hstep desc.length desc (Nat.le_refl _) hok w s hI

/-- What one item does to the locals and the state, by tag: the `REPORT_ID` test aside,
only an `INPUT` item touches the state and only `USAGE_PAGE`, `USAGE` and `INPUT` items
touch the decoder state tag and the map. -/
theorem processItem_next_cases (F : AxisFlags) (buf : Buffer) (item arg : Nat) (w w1 : Walk)
    (s s1 : TGamePadState) (h : processItem F buf item arg w s = Step.next w1 s1) :
    (item &&& 0xFC = HID_INPUT ∧ s1 = (inputItem F buf arg w s).2 ∧
      w1.state = (inputItem F buf arg w s).1.state ∧ w1.map = w.map) ∨
    (item &&& 0xFC = HID_USAGE_PAGE ∧ s1 = s ∧ w1.map = w.map ∧
      (w1.state = w.state ∨
        (arg = HID_USAGE_PAGE_BUTTONS ∧ w.state = DecodeState.GamePad ∧
          w1.state = DecodeState.GamePadButton))) ∨
    (item &&& 0xFC = HID_USAGE ∧ s1 = s ∧
      ((w1.map = w.map ∧ (w1.state = w.state ∨
          ((arg = HID_USAGE_JOYSTICK ∨ arg = HID_USAGE_GAMEPAD) ∧
            w1.state = DecodeState.GamePad))) ∨
       (isAxisUsage arg ∧ w1.map = w.map.set w.index arg ∧
         (w1.state = w.state ∨
           (w.state = DecodeState.GamePad ∧ w1.state = DecodeState.GamePadAxis))))) ∨
    (s1 = s ∧ w1.state = w.state ∧ w1.map = w.map) := by
  unfold processItem at h
  split_ifs at h with h1 h2
  · -- matching REPORT_ID
    unfold dispatch at h
    rw [h1] at h
    simp [HID_REPORT_ID, HID_USAGE_PAGE, HID_USAGE, HID_LOGICAL_MIN, HID_PHYSICAL_MIN,
      HID_LOGICAL_MAX, HID_PHYSICAL_MAX, HID_REPORT_SIZE, HID_REPORT_COUNT, HID_INPUT] at h
    obtain ⟨hw, hs⟩ := h
    right; right; right
    subst hw; subst hs
    exact ⟨rfl, rfl, rfl⟩
  · unfold dispatch at h
    split_ifs at h
    all_goals (injection h with hw hs; subst hw; subst hs)
    all_goals first
      | (right; right; right; exact ⟨rfl, rfl, rfl⟩)
      | (right; left;
         exact ⟨by assumption, rfl, rfl,
           Or.inr ⟨(by assumption : _ ∧ _).1, (by assumption : _ ∧ _).2, rfl⟩⟩)
      | (right; right; left;
         exact ⟨by assumption, rfl, Or.inl ⟨rfl, Or.inr ⟨by assumption, rfl⟩⟩⟩)
      | (right; right; left;
         exact ⟨by assumption, rfl, Or.inr ⟨by assumption, rfl, Or.inr ⟨by assumption, rfl⟩⟩⟩)
      | (right; right; left;
         exact ⟨by assumption, rfl, Or.inr ⟨by assumption, rfl, Or.inl rfl⟩⟩)
      | (left; refine ⟨by assumption, rfl, ?_, ?_⟩ <;> (unfold inputItem; split_ifs <;> rfl))

/-! ## What a decode pass can change -/

theorem storeAxis_other_fields (F : AxisFlags) (v : Nat) (value : Int) (s : TGamePadState) :
    (storeAxis F v value s).buttons = s.buttons ∧ (storeAxis F v value s).nbuttons = s.nbuttons ∧
    (storeAxis F v value s).minimum = s.minimum ∧ (storeAxis F v value s).maximum = s.maximum := by
  unfold storeAxis
  split_ifs <;> exact ⟨rfl, rfl, rfl, rfl⟩

theorem axisLoop_other_fields (F : AxisFlags) (buf : Buffer) (w : Walk) :
    ∀ (n i0 : Nat) (s : TGamePadState),
      (axisLoop F buf w n i0 s).buttons = s.buttons ∧
      (axisLoop F buf w n i0 s).nbuttons = s.nbuttons ∧
      (axisLoop F buf w n i0 s).minimum = s.minimum ∧
      (axisLoop F buf w n i0 s).maximum = s.maximum := by
  intro n
  induction n with
  | zero => intro i0 s; exact ⟨rfl, rfl, rfl, rfl⟩
  | succ n ih =>
    intro i0 s
    obtain ⟨h1, h2, h3, h4⟩ := ih (i0 + 1)
      (storeAxis F (w.map.getD i0 4294967295) (axisValue buf w i0) s)
    obtain ⟨g1, g2, g3, g4⟩ :=
      storeAxis_other_fields F (w.map.getD i0 4294967295) (axisValue buf w i0) s
    exact ⟨h1.trans g1, h2.trans g2, h3.trans g3, h4.trans g4⟩

theorem inputItem_flags_keep (F : AxisFlags) (buf : Buffer) (arg : Nat) (w : Walk)
    (s : TGamePadState) (f : Nat) (h : s.flags &&& f = f) :
    (inputItem F buf arg w s).2.flags &&& f = f := by
  unfold inputItem
  split_ifs
  · exact axisLoop_flags_keep F buf w f _ 0 _ h
  · exact h
  · exact h
  · exact h

theorem or_and_disjoint (a g f : Nat) (h : g &&& f = 0) : (a ||| g) &&& f = a &&& f := by
  apply Nat.eq_of_testBit_eq
  intro i
  have hi : (g &&& f).testBit i = false := by rw [h]; simp
  rw [Nat.testBit_and] at hi
  rw [Nat.testBit_and, Nat.testBit_or, Nat.testBit_and]
  cases ha : a.testBit i <;> cases hf : f.testBit i <;> cases hg : g.testBit i <;>
    simp_all

theorem storeAxis_not_axis (F : AxisFlags) (v : Nat) (value : Int) (s : TGamePadState)
    (hv : ¬ isAxisUsage v) : storeAxis F v value s = s := by
  unfold isAxisUsage at hv
  simp only [not_or] at hv
  obtain ⟨h1, h2, h3, h4, h5, h6⟩ := hv
  unfold storeAxis
  rw [if_neg h1, if_neg h2, if_neg h3, if_neg h4, if_neg h5, if_neg h6]

theorem storeAxis_untouched (F : AxisFlags) (u v : Nat) (value : Int) (s : TGamePadState)
    (hu : isAxisUsage u) (hvu : v ≠ u)
    (hdisj : ∀ t, isAxisUsage t → t ≠ u → flagOf F t &&& flagOf F u = 0) :
    axisOf (storeAxis F v value s) u = axisOf s u ∧
    (storeAxis F v value s).flags &&& flagOf F u = s.flags &&& flagOf F u := by
  by_cases hv : isAxisUsage v
  · constructor
    · rw [axisOf_storeAxis F v u value s hv hu, if_neg (fun e => hvu e.symm)]
    · rw [flags_storeAxis F v value s hv]
      exact or_and_disjoint _ _ _ (hdisj v hv hvu)
  · rw [storeAxis_not_axis F v value s hv]
    exact ⟨rfl, rfl⟩

theorem axisLoop_untouched (F : AxisFlags) (buf : Buffer) (w : Walk) (u : Nat)
    (hu : isAxisUsage u)
    (hdisj : ∀ t, isAxisUsage t → t ≠ u → flagOf F t &&& flagOf F u = 0)
    (hmap : ∀ i, w.map.getD i 4294967295 ≠ u) :
    ∀ (n i0 : Nat) (s : TGamePadState),
      axisOf (axisLoop F buf w n i0 s) u = axisOf s u ∧
      (axisLoop F buf w n i0 s).flags &&& flagOf F u = s.flags &&& flagOf F u := by
  intro n
  induction n with
  | zero => intro i0 s; exact ⟨rfl, rfl⟩
  | succ n ih =>
    intro i0 s
    obtain ⟨h1, h2⟩ := ih (i0 + 1)
      (storeAxis F (w.map.getD i0 4294967295) (axisValue buf w i0) s)
    obtain ⟨g1, g2⟩ := storeAxis_untouched F u (w.map.getD i0 4294967295) (axisValue buf w i0) s
      hu (hmap i0) hdisj
    exact ⟨h1.trans g1, h2.trans g2⟩

theorem axis_usage_lt (u : Nat) (hu : isAxisUsage u) : u < 128 := by
  unfold isAxisUsage HID_USAGE_X HID_USAGE_Y HID_USAGE_Z HID_USAGE_RX HID_USAGE_RY
    HID_USAGE_RZ at hu
  omega

theorem getD_ne_of_forall_mem (l : List Nat) (u : Nat) (hu : isAxisUsage u)
    (h : ∀ e ∈ l, e ≠ u) (i : Nat) : l.getD i 4294967295 ≠ u := by
  by_cases hi : i < l.length
  · rw [List.getD_eq_getElem l 4294967295 hi]
    exact h _ (List.getElem_mem hi)
  · have hlt := axis_usage_lt u hu
    have hnone : l[i]? = none := List.getElem?_eq_none (by omega)
    rw [List.getD_eq_getElem?_getD, hnone]
    simp only [Option.getD_none]
    omega

theorem inputItem_untouched (F : AxisFlags) (buf : Buffer) (arg : Nat) (w : Walk)
    (s : TGamePadState) (u : Nat) (hu : isAxisUsage u)
    (hdisj : ∀ t, isAxisUsage t → t ≠ u → flagOf F t &&& flagOf F u = 0)
    (hmap : ∀ e ∈ w.map, e ≠ u) :
    axisOf (inputItem F buf arg w s).2 u = axisOf s u ∧
    (inputItem F buf arg w s).2.flags &&& flagOf F u = s.flags &&& flagOf F u := by
  unfold inputItem
  split_ifs
  · exact axisLoop_untouched F buf w u hu hdisj (getD_ne_of_forall_mem w.map u hu hmap) _ 0 _
  · exact ⟨rfl, rfl⟩
  · exact ⟨rfl, rfl⟩
  · exact ⟨rfl, rfl⟩

theorem inputItem_buttons_keep (F : AxisFlags) (buf : Buffer) (arg : Nat) (w : Walk)
    (s : TGamePadState) (hst : w.state ≠ DecodeState.GamePadButton) :
    (inputItem F buf arg w s).2.buttons = s.buttons ∧
    (inputItem F buf arg w s).2.nbuttons = s.nbuttons ∧
    (inputItem F buf arg w s).1.state ≠ DecodeState.GamePadButton := by
  unfold inputItem
  split_ifs
  · obtain ⟨g1, g2, _, _⟩ := axisLoop_other_fields F buf w (min w.count MAX_AXIS) 0
      { s with minimum := toS32 w.min, maximum := toS32 w.max }
    refine ⟨g1, g2, ?_⟩
    intro h
    cases h
  all_goals exact ⟨rfl, rfl, hst⟩

theorem inputItem_no_context (F : AxisFlags) (buf : Buffer) (arg : Nat) (w : Walk)
    (s : TGamePadState) (hst : w.state = DecodeState.None) :
    inputItem F buf arg w s = (w, s) := by
  unfold inputItem
  have h1 : ¬ (w.state = DecodeState.GamePadAxis) := by rw [hst]; decide
  have h2 : ¬ (w.state = DecodeState.GamePadButton) := by rw [hst]; decide
  split_ifs <;> rfl

/-! ## Claims on what a decode pass changes -/

/-- C13: for every descriptor, report buffer and prior state, every presence-flag bit
pattern `f` that is set in `flags` before `USBGamePadDeviceDecodeReport` is still set in
`flags` after it (for a walk that ends at an out-of-bounds access, in the state reached
before that access). -/
theorem decode_never_clears_flags (F : AxisFlags) (desc : List Nat) (buf : Buffer)
    (s0 : TGamePadState) (f : Nat) (h : s0.flags &&& f = f) :
    (USBGamePadDeviceDecodeReport F desc buf s0).st.flags &&& f = f := by
  unfold USBGamePadDeviceDecodeReport
  refine decodeLoop_invariant F buf (fun _ s => s.flags &&& f = f) (fun _ _ => True) ?_ desc
    (fun _ _ => trivial) initWalk s0 h
  intro item arg w s w1 s1 _ hI hp
  rcases processItem_next_cases F buf item arg w w1 s s1 hp with
    ⟨_, hs, _, _⟩ | ⟨_, hs, _, _⟩ | ⟨_, hs, _⟩ | ⟨hs, _, _⟩
  · rw [hs]; exact inputItem_flags_keep F buf arg w s f hI
  · rw [hs]; exact hI
  · rw [hs]; exact hI
  · rw [hs]; exact hI

theorem decode_never_clears_flags_witness :
    ({ zeroState with flags := 6 } : TGamePadState).flags &&& 2 = 2 ∧
    (USBGamePadDeviceDecodeReport flagBits joystickXYButtons [0x05, 0xFB, 0x01]
      { zeroState with flags := 6 }).st.flags &&& 2 = 2 :=
  ⟨by decide,
   decode_never_clears_flags flagBits joystickXYButtons [0x05, 0xFB, 0x01]
     { zeroState with flags := 6 } 2 (by decide)⟩

/-- C14: for every descriptor, report buffer and prior state, and for each axis usage
`u` (the flag constants of the other axes sharing no bit with the flag of `u`): when the
descriptor holds no `USAGE` item with argument `u`, the axis value that `u` names and
the bits of its presence flag in `flags` are after the pass what they were before; when
the descriptor holds no `USAGE_PAGE` item with argument Buttons, `buttons` and
`nbuttons` are what they were before. -/
theorem decode_frame (F : AxisFlags) (desc : List Nat) (buf : Buffer) (s0 : TGamePadState)
    (u : Nat) (hu : isAxisUsage u)
    (hdisj : ∀ t, isAxisUsage t → t ≠ u → flagOf F t &&& flagOf F u = 0) :
    ((HID_USAGE, u) ∉ items desc →
      axisOf (USBGamePadDeviceDecodeReport F desc buf s0).st u = axisOf s0 u ∧
      (USBGamePadDeviceDecodeReport F desc buf s0).st.flags &&& flagOf F u =
        s0.flags &&& flagOf F u) ∧
    ((HID_USAGE_PAGE, HID_USAGE_PAGE_BUTTONS) ∉ items desc →
      (USBGamePadDeviceDecodeReport F desc buf s0).st.buttons = s0.buttons ∧
      (USBGamePadDeviceDecodeReport F desc buf s0).st.nbuttons = s0.nbuttons) := by
  unfold USBGamePadDeviceDecodeReport
  constructor
  · intro hno
    have hlt := axis_usage_lt u hu
    have key := decodeLoop_invariant F buf
      (fun w s => (∀ e ∈ w.map, e ≠ u) ∧ axisOf s u = axisOf s0 u ∧
        s.flags &&& flagOf F u = s0.flags &&& flagOf F u)
      (fun tag arg => ¬ (tag = HID_USAGE ∧ arg = u)) ?_ desc ?_ initWalk s0 ?_
    · exact key.2
    · intro item arg w s w1 s1 hok hI hp
      obtain ⟨hmap, hax, hfl⟩ := hI
      rcases processItem_next_cases F buf item arg w w1 s s1 hp with
        ⟨_, hs, _, hm⟩ | ⟨_, hs, hm, _⟩ | ⟨ht, hs, hcase⟩ | ⟨hs, _, hm⟩
      · obtain ⟨g1, g2⟩ := inputItem_untouched F buf arg w s u hu hdisj hmap
        rw [hs, hm]
        exact ⟨hmap, g1.trans hax, g2.trans hfl⟩
      · rw [hs, hm]; exact ⟨hmap, hax, hfl⟩
      · rw [hs]
        refine ⟨?_, hax, hfl⟩
        rcases hcase with ⟨hm, _⟩ | ⟨_, hm, _⟩
        · rw [hm]; exact hmap
        · rw [hm]
          intro e he
          rcases List.mem_or_eq_of_mem_set he with h1 | h1
          · exact hmap e h1
          · rw [h1]
            intro harg
            exact hok ⟨ht, harg⟩
      · rw [hs, hm]; exact ⟨hmap, hax, hfl⟩
    · intro p hp hpu
      apply hno
      have hp2 : p = (HID_USAGE, u) := Prod.ext hpu.1 hpu.2
      rw [← hp2]; exact hp
    · refine ⟨?_, rfl, rfl⟩
      intro e he
      have he2 : e = 4294967295 := by
        simp only [initWalk, List.mem_cons, List.mem_singleton, List.not_mem_nil, or_false,
          or_self] at he
        exact he
      omega
  · intro hno
    have key := decodeLoop_invariant F buf
      (fun w s => w.state ≠ DecodeState.GamePadButton ∧ s.buttons = s0.buttons ∧
        s.nbuttons = s0.nbuttons)
      (fun tag arg => ¬ (tag = HID_USAGE_PAGE ∧ arg = HID_USAGE_PAGE_BUTTONS)) ?_ desc ?_
      initWalk s0 ?_
    · exact key.2
    · intro item arg w s w1 s1 hok hI hp
      obtain ⟨hst, hb, hn⟩ := hI
      rcases processItem_next_cases F buf item arg w w1 s s1 hp with
        ⟨_, hs, hw, _⟩ | ⟨ht, hs, _, hcase⟩ | ⟨_, hs, hcase⟩ | ⟨hs, hw, _⟩
      · obtain ⟨g1, g2, g3⟩ := inputItem_buttons_keep F buf arg w s hst
        rw [hs, hw]
        exact ⟨g3, g1.trans hb, g2.trans hn⟩
      · rw [hs]
        refine ⟨?_, hb, hn⟩
        rcases hcase with h1 | ⟨h1, _, _⟩
        · rw [h1]; exact hst
        · exact absurd ⟨ht, h1⟩ hok
      · rw [hs]
        refine ⟨?_, hb, hn⟩
        rcases hcase with ⟨_, h1 | ⟨_, h1⟩⟩ | ⟨_, _, h1 | ⟨_, h1⟩⟩
        · rw [h1]; exact hst
        · rw [h1]; decide
        · rw [h1]; exact hst
        · rw [h1]; decide
      · rw [hs, hw]; exact ⟨hst, hb, hn⟩
    · intro p hp hpu
      apply hno
      have hp2 : p = (HID_USAGE_PAGE, HID_USAGE_PAGE_BUTTONS) := Prod.ext hpu.1 hpu.2
      rw [← hp2]; exact hp
    · exact ⟨by decide, rfl, rfl⟩

theorem flagBits_disjoint (u t : Nat) (hu : isAxisUsage u) (ht : isAxisUsage t) (hne : t ≠ u) :
    flagOf flagBits t &&& flagOf flagBits u = 0 := by
  unfold isAxisUsage at hu ht
  rcases hu with h | h | h | h | h | h <;> rcases ht with g | g | g | g | g | g <;>
    subst h <;> subst g <;> first
      | exact absurd rfl hne
      | decide

theorem decode_frame_witness :
    (isAxisUsage HID_USAGE_Z ∧
      (∀ t, isAxisUsage t → t ≠ HID_USAGE_Z →
        flagOf flagBits t &&& flagOf flagBits HID_USAGE_Z = 0) ∧
      (HID_USAGE, HID_USAGE_Z) ∉ items joystickXYGroupButtons) ∧
    axisOf (USBGamePadDeviceDecodeReport flagBits joystickXYGroupButtons [0x05, 0xFB, 0x01]
        { zeroState with z := 9, flags := 4 }).st HID_USAGE_Z =
      axisOf { zeroState with z := 9, flags := 4 } HID_USAGE_Z :=
  ⟨⟨by decide, fun t ht hne => flagBits_disjoint HID_USAGE_Z t (by decide) ht hne, by decide⟩,
   ((decode_frame flagBits joystickXYGroupButtons [0x05, 0xFB, 0x01]
      { zeroState with z := 9, flags := 4 } HID_USAGE_Z (by decide)
      (fun t ht hne => flagBits_disjoint HID_USAGE_Z t (by decide) ht hne)).1 (by decide)).1⟩

/-- C15: for every descriptor that holds no `USAGE` item with argument Joystick (0x04)
or Gamepad (0x05), every report buffer and every prior state, the GamePad state after
`USBGamePadDeviceDecodeReport` is the prior state, and the decoder state tag is still
`None`. -/
theorem decode_without_gamepad_usage (F : AxisFlags) (desc : List Nat) (buf : Buffer)
    (s0 : TGamePadState)
    (hj : (HID_USAGE, HID_USAGE_JOYSTICK) ∉ items desc)
    (hg : (HID_USAGE, HID_USAGE_GAMEPAD) ∉ items desc) :
    (USBGamePadDeviceDecodeReport F desc buf s0).st = s0 ∧
    (USBGamePadDeviceDecodeReport F desc buf s0).walk.state = DecodeState.None := by
  unfold USBGamePadDeviceDecodeReport
  have key := decodeLoop_invariant F buf
    (fun w s => w.state = DecodeState.None ∧ s = s0)
    (fun tag arg => ¬ (tag = HID_USAGE ∧ (arg = HID_USAGE_JOYSTICK ∨ arg = HID_USAGE_GAMEPAD)))
    ?_ desc ?_ initWalk s0 ⟨rfl, rfl⟩
  · exact ⟨key.2, key.1⟩
  · intro item arg w s w1 s1 hok hI hp
    obtain ⟨hst, hs0⟩ := hI
    have hnogp : ¬ (w.state = DecodeState.GamePad) := by rw [hst]; decide
    rcases processItem_next_cases F buf item arg w w1 s s1 hp with
      ⟨_, hs, hw, _⟩ | ⟨_, hs, _, hcase⟩ | ⟨ht, hs, hcase⟩ | ⟨hs, hw, _⟩
    · rw [inputItem_no_context F buf arg w s hst] at hs hw
      rw [hs, hw]; exact ⟨hst, hs0⟩
    · rw [hs]
      refine ⟨?_, hs0⟩
      rcases hcase with h1 | ⟨_, h1, _⟩
      · rw [h1]; exact hst
      · exact absurd h1 hnogp
    · rw [hs]
      refine ⟨?_, hs0⟩
      rcases hcase with ⟨_, h1 | ⟨h1, _⟩⟩ | ⟨_, _, h1 | ⟨h1, _⟩⟩
      · rw [h1]; exact hst
      · exact absurd ⟨ht, h1⟩ hok
      · rw [h1]; exact hst
      · exact absurd h1 hnogp
    · rw [hs, hw]; exact ⟨hst, hs0⟩
  · intro p hp hpu
    rcases hpu.2 with h | h
    · exact hj (by
        have hp2 : p = (HID_USAGE, HID_USAGE_JOYSTICK) := Prod.ext hpu.1 h
        rw [← hp2]; exact hp)
    · exact hg (by
        have hp2 : p = (HID_USAGE, HID_USAGE_GAMEPAD) := Prod.ext hpu.1 h
        rw [← hp2]; exact hp)

theorem decode_without_gamepad_usage_witness :
    ((HID_USAGE, HID_USAGE_JOYSTICK) ∉
        items [0x05, 0x01, 0x09, 0x02, 0xA1, 0x01, 0x09, 0x30, 0x05, 0x09, 0x75, 0x08, 0x95, 0x01,
          0x81, 0x02, 0xC0] ∧
      (HID_USAGE, HID_USAGE_GAMEPAD) ∉
        items [0x05, 0x01, 0x09, 0x02, 0xA1, 0x01, 0x09, 0x30, 0x05, 0x09, 0x75, 0x08, 0x95, 0x01,
          0x81, 0x02, 0xC0]) ∧
    (USBGamePadDeviceDecodeReport flagBits
        [0x05, 0x01, 0x09, 0x02, 0xA1, 0x01, 0x09, 0x30, 0x05, 0x09, 0x75, 0x08, 0x95, 0x01,
          0x81, 0x02, 0xC0] [0x05, 0xFB] zeroState).st = zeroState :=
  ⟨by decide,
   (decode_without_gamepad_usage flagBits
      [0x05, 0x01, 0x09, 0x02, 0xA1, 0x01, 0x09, 0x30, 0x05, 0x09, 0x75, 0x08, 0x95, 0x01,
        0x81, 0x02, 0xC0] [0x05, 0xFB] zeroState (by decide) (by decide)).1⟩

/-! ## Claims on the map bound, the bit extractor range and the item argument -/

/-- An axis `USAGE` item met when `index` has reached `MAX_AXIS` executes
`map[index++] = arg` with the index outside the array. -/
theorem usage_axis_past_map (F : AxisFlags) (buf : Buffer) (item u : Nat) (w : Walk)
    (s : TGamePadState) (hitem : item &&& 0xFC = HID_USAGE) (hu : isAxisUsage u)
    (hidx : MAX_AXIS ≤ w.index) :
    processItem F buf item u w s = Step.overflow := by
  have h2 : ¬ (HID_USAGE = HID_REPORT_ID) := by decide
  have h3 : ¬ (HID_USAGE = HID_USAGE_PAGE) := by decide
  have h4 : ¬ (u = HID_USAGE_JOYSTICK ∨ u = HID_USAGE_GAMEPAD) := by
    unfold isAxisUsage HID_USAGE_X HID_USAGE_Y HID_USAGE_Z HID_USAGE_RX HID_USAGE_RY
      HID_USAGE_RZ at hu
    unfold HID_USAGE_JOYSTICK HID_USAGE_GAMEPAD
    omega
  have h5 : u = HID_USAGE_X ∨ u = HID_USAGE_Y ∨ u = HID_USAGE_Z ∨
      u = HID_USAGE_RX ∨ u = HID_USAGE_RY ∨ u = HID_USAGE_RZ := hu
  have h6 : ¬ (w.index < MAX_AXIS) := by omega
  simp only [processItem, hitem, if_neg h2, dispatch, if_neg h3, if_true, if_neg h4, if_pos h5,
    if_neg h6]

/-- C11 (evaluation of the code): for the descriptor `sevenAxisUsages` the six first
axis usages fill `map[0] .. map[5]` and the seventh `USAGE` item is processed with
`index = 6 = MAX_AXIS`: the statement `map[index++] = arg` writes `map[6]`, outside the
array, and the walk ends there (`Exit.overflow`) instead of going on with the map and
the other locals unchanged. -/
theorem seventh_axis_usage_writes_past_map :
    USBGamePadDeviceDecodeReport flagBits sevenAxisUsages [0x05, 0xFB, 0x01] zeroState =
      { exit := Exit.overflow,
        walk := { initWalk with index := 6, map := [0x30, 0x31, 0x32, 0x33, 0x34, 0x35],
                                state := DecodeState.GamePadAxis },
        st := zeroState } ∧
    processItem flagBits [0x05, 0xFB, 0x01] 0x09 0x30
      { initWalk with index := 6, map := [0x30, 0x31, 0x32, 0x33, 0x34, 0x35],
                      state := DecodeState.GamePadAxis } zeroState = Step.overflow := by
  decide

/-- C18: for a field of `L >= 1` bits that lies inside one byte, possibly starting
mid-byte (`offset % 8 + L <= 8`; `offset + L + 7 < 2^32`, no wrap of the 32-bit loop
bound), `BitGetUnsigned` returns `(buffer[offset / 8] >> (offset % 8)) mod 2^L`. -/
theorem BitGetUnsigned_sub_byte (buf : Buffer) (offset L : Nat) (hL : 1 ≤ L)
    (hin : offset % 8 + L ≤ 8) (hw : offset + L + 7 < 4294967296) :
    BitGetUnsigned buf offset L = (readByte buf (offset / 8) >>> (offset % 8)) % 2 ^ L ∧
    BitGetUnsigned buf offset L = readByte buf (offset / 8) / 2 ^ (offset % 8) % 2 ^ L := by
  have h := BitGetUnsigned_in_byte buf offset L hL hin hw
  refine ⟨h, ?_⟩
  rw [h, Nat.shiftRight_eq_div_pow]

theorem BitGetUnsigned_sub_byte_witness :
    (1 ≤ 3 ∧ 11 % 8 + 3 ≤ 8 ∧ 11 + 3 + 7 < 4294967296) ∧
    BitGetUnsigned [0x00, 0xE8] 11 3 = (readByte [0x00, 0xE8] (11 / 8) >>> (11 % 8)) % 2 ^ 3 ∧
    BitGetUnsigned [0x00, 0xE8] 11 3 = 5 :=
  ⟨by decide,
   (BitGetUnsigned_sub_byte [0x00, 0xE8] 11 3 (by decide) (by decide) (by decide)).1,
   by decide⟩

/-- C19 (evaluation of the code): for the buffer `[0x80, 0xFF]`, offset 7 and length 2
(a 2-bit field over buffer bits 7 and 8) the mask of the last byte,
`(u8) ((1 << (7 + 2)) - 1)`, is `0xFF`, the whole second byte is ORed into the result and
`BitGetUnsigned` returns 255, which is not below `2^2`. -/
theorem BitGetUnsigned_exceeds_field_width :
    toU8 (sub32 (shl32 1 (wrap32 (7 % 8 + 2))) 1) = 255 ∧
    BitGetUnsigned [0x80, 0xFF] 7 2 = 255 ∧
    ¬ (BitGetUnsigned [0x80, 0xFF] 7 2 < 2 ^ 2) := by
  decide

/-- C20 (evaluation of the code): the four-byte payload `FF FF 00 00` is decoded as
`0xFFFFFFFF`, that is -1, because its first byte is read sign-extended and not masked,
whereas the specified little-endian value is 65535; decoding `wideLogicalMax` records
`maximum = -1`. -/
theorem four_byte_payload_sign_extends_first_byte :
    fetchArg 0x27 [0xFF, 0xFF, 0x00, 0x00] = some (4294967295, []) ∧
    toS32 4294967295 = -1 ∧
    specArg [0xFF, 0xFF, 0x00, 0x00] = 65535 ∧
    (USBGamePadDeviceDecodeReport flagBits wideLogicalMax [0x34, 0x12] zeroState).st.maximum =
      -1 := by
  decide

/-- The two-byte payload path masks its first byte: `FF 00` is decoded as 255 and
`FF FF` as -1, the specified values. -/
theorem two_byte_payload_masks_first_byte :
    fetchArg 0x26 [0xFF, 0x00] = some (255, []) ∧ specArg [0xFF, 0x00] = 255 ∧
    fetchArg 0x26 [0xFF, 0xFF] = some (4294967295, []) ∧ specArg [0xFF, 0xFF] = -1 := by
  decide

set_option maxRecDepth 1000000 in
/-- For an empty payload and for a one-byte payload the decoded argument is the
specified value. -/
theorem short_payload_arg : (∀ item rest, item &&& 3 = 0 →
      fetchArg item rest = some (0, rest) ∧ specArg [] = 0) ∧
    (∀ b0 < 256, toS32 (sext8 b0) = specArg [b0]) := by
  constructor
  · intro item rest h
    unfold fetchArg
    rw [if_pos h]
    exact ⟨rfl, rfl⟩
  · decide

/-! ## Two sequential axis groups -/

theorem walk_logical_max (F : AxisFlags) (buf : Buffer) (m : Nat) (r : List Nat) (w : Walk)
    (s : TGamePadState) :
    decodeLoop F buf (0x25 :: m :: r) w s = decodeLoop F buf r { w with max := sext8 m } s := by
  rw [decodeLoop_item1 F buf 0x25 m r w s (by decide)]
  have h1 : (0x25 : Nat) &&& 0xFC = HID_LOGICAL_MAX := by decide
  simp [stepThen, processItem, h1, dispatch, HID_REPORT_ID, HID_USAGE_PAGE, HID_USAGE,
    HID_LOGICAL_MIN, HID_PHYSICAL_MIN, HID_LOGICAL_MAX, HID_PHYSICAL_MAX]

theorem toS32_sext8_byteOfS8 (m : Int) (h1 : -128 ≤ m) (h2 : m ≤ 127) :
    toS32 (sext8 (byteOfS8 m)) = m := by
  by_cases hm : m < 0
  · have hv : sext8 (byteOfS8 m) = (m + 256).toNat + 4294967040 := by
      unfold sext8 byteOfS8
      have e : (m % 256).toNat = (m + 256).toNat := by
        congr 1; omega
      rw [e]
      have e2 : (m + 256).toNat % 256 = (m + 256).toNat := Nat.mod_eq_of_lt (by omega)
      rw [e2, if_neg (by omega)]
    rw [hv]
    unfold toS32
    have e3 : ((m + 256).toNat + 4294967040) % 4294967296 = (m + 256).toNat + 4294967040 :=
      Nat.mod_eq_of_lt (by omega)
    rw [e3, if_neg (by omega)]
    omega
  · have hv : sext8 (byteOfS8 m) = m.toNat := by
      unfold sext8 byteOfS8
      have e : (m % 256).toNat = m.toNat := by
        congr 1; omega
      rw [e]
      have e2 : m.toNat % 256 = m.toNat := Nat.mod_eq_of_lt (by omega)
      rw [e2, if_pos (by omega)]
    rw [hv]
    unfold toS32
    have e3 : m.toNat % 4294967296 = m.toNat := Nat.mod_eq_of_lt (by omega)
    rw [e3, if_pos (by omega)]
    omega

/-- The walk over one axis group met in the inside-gamepad-collection state: the group
is processed to its end, the state tag is back to `GamePad`, `index` has advanced by the
number of usages and the shared range holds the minimum and maximum of the group. -/
theorem walk_axisGroup (F : AxisFlags) (buf : Buffer) (us : List Nat) (m M n c : Nat)
    (r : List Nat) (w : Walk) (s : TGamePadState) (hax : ∀ u ∈ us, isAxisUsage u)
    (hne : us ≠ []) (hidx : w.index + us.length ≤ MAX_AXIS)
    (hst : w.state = DecodeState.GamePad) :
    ∃ w1 s1, decodeLoop F buf (axisGroup us m M n c ++ r) w s = decodeLoop F buf r w1 s1 ∧
      w1.state = DecodeState.GamePad ∧ w1.index = w.index + us.length ∧
      s1.minimum = toS32 (sext8 m) ∧ s1.maximum = toS32 (sext8 M) := by
  unfold axisGroup
  rw [List.append_assoc, walk_usageItems F buf _ s us w hax hidx hne (Or.inl hst)]
  simp only [List.cons_append, List.nil_append]
  rw [walk_logical_min, walk_logical_max, walk_report_size, walk_report_count, walk_input]
  refine ⟨_, _, rfl, ?_, ?_, ?_, ?_⟩
  · simp [inputItem, sext8_small 2 (by decide)]
  · simp [inputItem, sext8_small 2 (by decide)]
  · simp only [inputItem, sext8_small 2 (by decide), if_true]
    exact (axisLoop_other_fields F buf _ _ 0 _).2.2.1
  · simp only [inputItem, sext8_small 2 (by decide), if_true]
    exact (axisLoop_other_fields F buf _ _ 0 _).2.2.2

/-- C12: after decoding a descriptor with a Joystick or Gamepad `USAGE` and two
sequential axis groups, each with its own axis `USAGE` items, `LOGICAL_MINIMUM`,
`LOGICAL_MAXIMUM`, `REPORT_SIZE`, `REPORT_COUNT` and `INPUT (0x02)` item (at most
`MAX_AXIS` axis usages in all), `minimum` and `maximum` of the state are the logical
minimum `m2` and maximum `M2` of the second group, whatever the first group declares
and whatever the report buffer holds. -/
theorem two_axis_groups_keep_second_range (F : AxisFlags) (buf : Buffer) (j : Nat)
    (us1 : List Nat) (m1 M1 n1 c1 : Nat) (us2 : List Nat) (m2 M2 : Int) (n2 c2 : Nat)
    (s0 : TGamePadState)
    (hj : j = HID_USAGE_JOYSTICK ∨ j = HID_USAGE_GAMEPAD)
    (hax1 : ∀ u ∈ us1, isAxisUsage u) (hax2 : ∀ u ∈ us2, isAxisUsage u)
    (hne1 : us1 ≠ []) (hne2 : us2 ≠ []) (hlen : us1.length + us2.length ≤ MAX_AXIS)
    (hm1 : -128 ≤ m2) (hm2 : m2 ≤ 127) (hM1 : -128 ≤ M2) (hM2 : M2 ≤ 127) :
    (USBGamePadDeviceDecodeReport F
      (twoAxisGroups j us1 m1 M1 n1 c1 us2 (byteOfS8 m2) (byteOfS8 M2) n2 c2) buf s0).exit =
        Exit.finished ∧
    (USBGamePadDeviceDecodeReport F
      (twoAxisGroups j us1 m1 M1 n1 c1 us2 (byteOfS8 m2) (byteOfS8 M2) n2 c2) buf s0).st.minimum =
        m2 ∧
    (USBGamePadDeviceDecodeReport F
      (twoAxisGroups j us1 m1 M1 n1 c1 us2 (byteOfS8 m2) (byteOfS8 M2) n2 c2) buf s0).st.maximum =
        M2 := by
  unfold USBGamePadDeviceDecodeReport twoAxisGroups
  rw [walk_usage_gamepad F buf j _ _ _ hj]
  obtain ⟨w1, s1, e1, hst1, hidx1, _, _⟩ :=
    walk_axisGroup F buf us1 m1 M1 n1 c1 (axisGroup us2 (byteOfS8 m2) (byteOfS8 M2) n2 c2)
      { initWalk with state := DecodeState.GamePad } s0 hax1 hne1
      (by
        have h0 : ({ initWalk with state := DecodeState.GamePad } : Walk).index = 0 := rfl
        rw [h0]; omega) rfl
  rw [e1]
  have hidx0 : ({ initWalk with state := DecodeState.GamePad } : Walk).index = 0 := rfl
  rw [hidx0, Nat.zero_add] at hidx1
  obtain ⟨w2, s2, e2, _, _, hmin, hmax⟩ :=
    walk_axisGroup F buf us2 (byteOfS8 m2) (byteOfS8 M2) n2 c2 [] w1 s1 hax2 hne2
      (by rw [hidx1]; exact hlen) hst1
  rw [List.append_nil] at e2
  rw [e2, decodeLoop_nil]
  refine ⟨rfl, ?_, ?_⟩
  · show s2.minimum = m2
    rw [hmin, toS32_sext8_byteOfS8 m2 hm1 hm2]
  · show s2.maximum = M2
    rw [hmax, toS32_sext8_byteOfS8 M2 hM1 hM2]

theorem two_axis_groups_keep_second_range_witness :
    ((4 = HID_USAGE_JOYSTICK ∨ 4 = HID_USAGE_GAMEPAD) ∧
      (∀ u ∈ [0x30, 0x31], isAxisUsage u) ∧ (∀ u ∈ [0x32, 0x35], isAxisUsage u) ∧
      [0x30, 0x31] ≠ ([] : List Nat) ∧ [0x32, 0x35] ≠ ([] : List Nat) ∧
      [0x30, 0x31].length + [0x32, 0x35].length ≤ MAX_AXIS ∧
      (-128 : Int) ≤ 0 ∧ (0 : Int) ≤ 127 ∧ (-128 : Int) ≤ 100 ∧ (100 : Int) ≤ 127) ∧
    twoAxisGroups 4 [0x30, 0x31] 0x81 0x7F 8 2 [0x32, 0x35] (byteOfS8 0) (byteOfS8 100) 8 2 =
      groupsXYThenZRz ∧
    (USBGamePadDeviceDecodeReport flagBits
      (twoAxisGroups 4 [0x30, 0x31] 0x81 0x7F 8 2 [0x32, 0x35] (byteOfS8 0) (byteOfS8 100) 8 2)
      [1, 2, 3, 4] zeroState).st.minimum = 0 ∧
    (USBGamePadDeviceDecodeReport flagBits
      (twoAxisGroups 4 [0x30, 0x31] 0x81 0x7F 8 2 [0x32, 0x35] (byteOfS8 0) (byteOfS8 100) 8 2)
      [1, 2, 3, 4] zeroState).st.maximum = 100 :=
  ⟨by decide, by decide,
   (two_axis_groups_keep_second_range flagBits [1, 2, 3, 4] 4 [0x30, 0x31] 0x81 0x7F 8 2
      [0x32, 0x35] 0 100 8 2 zeroState (by decide) (by decide) (by decide) (by decide)
      (by decide) (by decide) (by decide) (by decide) (by decide) (by decide)).2⟩

/-- C21 (evaluation of the code): for the descriptor `groupsXYThenZRz` (group X, Y,
then group Z, Rz, each with its own `INPUT` item) and the buffer `[1, 2, 3, 4]`, the
second `INPUT` item reads its two fields at bit offsets 16 and 24 and stores them
through `map[0]` and `map[1]`, the usages of the first group: `x = 3` and `y = 4`
replace the values 1 and 2 stored by the first `INPUT` item, `z` and `rz` keep their
prior value 0 and only the X and Y presence flags are set. -/
theorem second_axis_group_stored_in_first_group_axes :
    USBGamePadDeviceDecodeReport flagBits groupsXYThenZRz [1, 2, 3, 4] zeroState =
      { exit := Exit.finished,
        walk := { offset := 32, size := 8, count := 2, index := 4,
                  map := [0x30, 0x31, 0x32, 0x35, 4294967295, 4294967295],
                  max := 100, min := 0, state := DecodeState.GamePad },
        st := { zeroState with x := 3, y := 4, z := 0, rz := 0, minimum := 0, maximum := 100,
                               flags := flagBits.FLAG_X ||| flagBits.FLAG_Y } } := by
  decide!

/-! ## The polling chain -/

/-- One completion, whatever it reports: the routine returns with a request in the slot
again and exactly one more submission. -/
theorem completion_resubmits (F : AxisFlags) (u : Nat) (c : Completion) (d : TUSBGamePadDevice)
    (hu : d.m_pURB = some u) :
    ∃ d1, USBGamePadDeviceCompletionRoutine F u c d = some d1 ∧
      d1.submitted = d.submitted + 1 ∧ d1.m_pURB = some d.submitted := by
  unfold USBGamePadDeviceCompletionRoutine
  rw [if_pos hu]
  cases hd : d.m_pHIDReportDescriptor <;> by_cases hh : d.m_pStatusHandler = true <;>
    by_cases hc : (c.status ≠ 0 ∧ 0 < c.resultLength) <;>
    simp [USBGamePadDeviceStartRequest, hd, hh, hc]

/-- One completion that reports failure leaves the GamePad state and the handler count
as they were. -/
theorem failed_completion_skips_decode (F : AxisFlags) (u : Nat) (c : Completion)
    (d : TUSBGamePadDevice) (hu : d.m_pURB = some u)
    (hfail : c.status = 0 ∨ c.resultLength = 0) :
    ∃ d1, USBGamePadDeviceCompletionRoutine F u c d = some d1 ∧
      d1.submitted = d.submitted + 1 ∧ d1.m_pURB = some d.submitted ∧
      d1.m_State = d.m_State ∧ d1.notified = d.notified := by
  have hc : ¬ (c.status ≠ 0 ∧ 0 < c.resultLength) := by
    rintro ⟨h1, h2⟩
    rcases hfail with h | h
    · exact h1 h
    · omega
  unfold USBGamePadDeviceCompletionRoutine
  rw [if_pos hu]
  simp only [if_neg hc, USBGamePadDeviceStartRequest]
  exact ⟨_, rfl, rfl, rfl, rfl, rfl⟩

theorem pollingRun_failures (F : AxisFlags) (cs : List Completion) :
    ∀ (d : TUSBGamePadDevice) (u : Nat), d.m_pURB = some u →
      (∀ c ∈ cs, c.status = 0 ∨ c.resultLength = 0) →
      ∃ d1, pollingRun F cs d = some d1 ∧ d1.submitted = d.submitted + cs.length ∧
        d1.m_pURB ≠ none ∧ d1.m_State = d.m_State ∧ d1.notified = d.notified := by
  induction cs with
  | nil =>
    intro d u hu _
    refine ⟨d, rfl, rfl, ?_, rfl, rfl⟩
    rw [hu]; simp
  | cons c cs ih =>
    intro d u hu hfail
    obtain ⟨d1, e1, hs1, hu1, hst1, hn1⟩ :=
      failed_completion_skips_decode F u c d hu (hfail c (List.mem_cons_self _ _))
    obtain ⟨d2, e2, hs2, hu2, hst2, hn2⟩ :=
      ih d1 d.submitted hu1 (fun x hx => hfail x (List.mem_cons_of_mem _ hx))
    refine ⟨d2, ?_, ?_, hu2, hst2.trans hst1, hn2.trans hn1⟩
    · simp only [pollingRun, hu, e1]
      exact e2
    · rw [hs2, hs1, List.length_cons]; omega

theorem pollingRun_any (F : AxisFlags) (cs : List Completion) :
    ∀ (d : TUSBGamePadDevice) (u : Nat), d.m_pURB = some u →
      ∃ d1, pollingRun F cs d = some d1 ∧ d1.submitted = d.submitted + cs.length ∧
        d1.m_pURB ≠ none := by
  induction cs with
  | nil =>
    intro d u hu
    refine ⟨d, rfl, rfl, ?_⟩
    rw [hu]; simp
  | cons c cs ih =>
    intro d u hu
    obtain ⟨d1, e1, hs1, hu1⟩ := completion_resubmits F u c d hu
    obtain ⟨d2, e2, hs2, hu2⟩ := ih d1 d.submitted hu1
    refine ⟨d2, ?_, ?_, hu2⟩
    · simp only [pollingRun, hu, e1]
      exact e2
    · rw [hs2, hs1, List.length_cons]; omega

/-- C16: from a session with an empty request slot, `USBGamePadDeviceStartRequest`
makes the first submission, and after `N` consecutive completions that report failure
(status 0 or length 0) the chain has issued `N + 1` submissions more than before, a
request is in the slot, and the GamePad state and the handler count are untouched; for
completions of any kind the count and the occupied slot are the same, since the
routine resubmits whether or not the decode ran. -/
theorem failures_still_resubmit (F : AxisFlags) (d0 : TUSBGamePadDevice)
    (cs : List Completion) (hidle : d0.m_pURB = none)
    (hfail : ∀ c ∈ cs, c.status = 0 ∨ c.resultLength = 0) :
    (∃ d1 d, USBGamePadDeviceStartRequest d0 = some d1 ∧ pollingRun F cs d1 = some d ∧
      d.submitted = d0.submitted + cs.length + 1 ∧ d.m_pURB ≠ none ∧
      d.m_State = d0.m_State ∧ d.notified = d0.notified) ∧
    (∀ cs2 : List Completion, ∃ d1 d, USBGamePadDeviceStartRequest d0 = some d1 ∧
      pollingRun F cs2 d1 = some d ∧ d.submitted = d0.submitted + cs2.length + 1 ∧
      d.m_pURB ≠ none) := by
  have hstart : USBGamePadDeviceStartRequest d0 =
      some { d0 with m_pURB := some d0.submitted, submitted := d0.submitted + 1 } := by
    unfold USBGamePadDeviceStartRequest
    rw [hidle]
  constructor
  · obtain ⟨d, e, hs, hu, hst, hn⟩ := pollingRun_failures F cs
      { d0 with m_pURB := some d0.submitted, submitted := d0.submitted + 1 } d0.submitted rfl hfail
    refine ⟨_, d, hstart, e, ?_, hu, hst, hn⟩
    rw [hs]; simp only; omega
  · intro cs2
    obtain ⟨d, e, hs, hu⟩ := pollingRun_any F cs2
      { d0 with m_pURB := some d0.submitted, submitted := d0.submitted + 1 } d0.submitted rfl
    refine ⟨_, d, hstart, e, ?_, hu⟩
    rw [hs]; simp only; omega

theorem failures_still_resubmit_witness :
    (idleDevice.m_pURB = none ∧
      (∀ c ∈ [({ status := 0, resultLength := 8, report := [1, 2, 3] } : Completion),
              { status := 1, resultLength := 0, report := [] },
              { status := 0, resultLength := 0, report := [9] }],
        c.status = 0 ∨ c.resultLength = 0)) ∧
    ∃ d1 d, USBGamePadDeviceStartRequest idleDevice = some d1 ∧
      pollingRun flagBits
        [({ status := 0, resultLength := 8, report := [1, 2, 3] } : Completion),
         { status := 1, resultLength := 0, report := [] },
         { status := 0, resultLength := 0, report := [9] }] d1 = some d ∧
      d.submitted = idleDevice.submitted +
        [({ status := 0, resultLength := 8, report := [1, 2, 3] } : Completion),
         { status := 1, resultLength := 0, report := [] },
         { status := 0, resultLength := 0, report := [9] }].length + 1 ∧
      d.m_pURB ≠ none ∧ d.m_State = idleDevice.m_State ∧ d.notified = idleDevice.notified :=
  ⟨by decide,
   (failures_still_resubmit flagBits idleDevice
      [({ status := 0, resultLength := 8, report := [1, 2, 3] } : Completion),
       { status := 1, resultLength := 0, report := [] },
       { status := 0, resultLength := 0, report := [9] }] rfl (by decide)).1⟩

/-! ## The synchronous report fetch -/

theorem getReportLoop_cons (F : AxisFlags) (oracle : ControlOracle) (desc : List Nat)
    (item : Nat) (rest : List Nat) (f : ReportFetch) :
    getReportLoop F oracle desc (item :: rest) f =
      match fetchArg item rest with
      | none => { f with truncated := true }
      | some (arg, r) => getReportStep F oracle desc item arg f (getReportLoop F oracle desc r) := by
  rcases rest with _ | ⟨b0, _ | ⟨b1, _ | ⟨b2, _ | ⟨b3, r⟩⟩⟩⟩ <;>
  · show (ite _ _ _) = _
    unfold fetchArg
    split_ifs <;> rfl

theorem getReportLoop_skip_aux (F : AxisFlags) (oracle : ControlOracle) (desc tl : List Nat) :
    ∀ (n : Nat) (pre : List Nat), pre.length ≤ n → wellFormed pre = true →
      HID_REPORT_ID ∉ itemTags pre → ∀ (f : ReportFetch),
      getReportLoop F oracle desc (pre ++ tl) f = getReportLoop F oracle desc tl f := by
  intro n
  induction n with
  | zero =>
    intro pre hlen _ _ f
    have hnil : pre = [] := List.length_eq_zero.mp (Nat.le_zero.mp hlen)
    subst hnil
    rfl
  | succ n ih =>
    intro pre hlen hwf hno f
    rcases pre with _ | ⟨item, rest⟩
    · rfl
    · rw [wellFormed_cons] at hwf
      rw [itemTags_cons] at hno
      rw [List.cons_append, getReportLoop_cons]
      cases hf : fetchArg item rest with
      | none => rw [hf] at hwf; simp at hwf
      | some p =>
        obtain ⟨arg, r⟩ := p
        rw [hf] at hwf hno
        simp only [List.mem_cons, not_or] at hno
        rw [fetchArg_append item rest arg r hf tl]
        have hr : r.length ≤ n := by
          have h1 := fetchArg_length item rest arg r hf
          simp only [List.length_cons] at hlen
          omega
        have htag : ¬ (item &&& 0xFC = HID_REPORT_ID) := fun h => hno.1 h.symm
        simp only [getReportStep, if_neg htag]
        exact ih r hr hwf hno.2 f

/-- Items before the first `REPORT_ID` item issue no request: the scan passes over
them. -/
theorem getReportLoop_skip (F : AxisFlags) (oracle : ControlOracle) (desc pre tl : List Nat)
    (hwf : wellFormed pre = true) (hno : HID_REPORT_ID ∉ itemTags pre) (f : ReportFetch) :
    getReportLoop F oracle desc (pre ++ tl) f = getReportLoop F oracle desc tl f :=
  getReportLoop_skip_aux F oracle desc tl pre.length pre (Nat.le_refl _) hwf hno f

/-- C17, as stated, fails: for the descriptor `[0x85, 0x01]` (one `REPORT_ID (1)` item)
and an oracle for which every transfer fails, two `GET_REPORT` requests are issued, with
values `0x0100` and `0x0000`; and for an oracle for which only the request with value 0
succeeds, the decoder runs although the request scoped to the first `REPORT_ID` item has
failed. -/
theorem get_report_retries_after_failure :
    HID_REPORT_ID ∈ itemTags [0x85, 0x01] ∧
    (USBGamePadDeviceGetReport flagBits failingOracle [0x85, 0x01] [] zeroState).requests =
      [256, 0] ∧
    (USBGamePadDeviceGetReport flagBits failingOracle [0x85, 0x01] [] zeroState).decodes = 0 ∧
    (onlyIdZeroOracle [] 256).1 = 0 ∧
    (USBGamePadDeviceGetReport flagBits onlyIdZeroOracle [0x85, 0x01] [] zeroState).requests =
      [256, 0] ∧
    (USBGamePadDeviceGetReport flagBits onlyIdZeroOracle [0x85, 0x01] [] zeroState).decodes =
      1 := by
  decide

/-- C17 (amended): with the control transfer as an oracle and `pre` a run of complete
items without `REPORT_ID` item.  For the descriptor `pre` itself (no `REPORT_ID` item)
`USBGamePadDeviceGetReport` issues exactly one request, with value 0, and runs the
decoder exactly when it succeeds.  For a descriptor `pre ++ item :: rest` whose first
`REPORT_ID` item is `item` with argument `arg`: when the request with value `arg << 8`
succeeds, it is the only request and the decoder runs once, on the buffer the transfer
delivered; when it fails, the decoder is not run for it and the scan goes on after the
item, with the later `REPORT_ID` items and at last the request with value 0. -/
theorem get_report_requests (F : AxisFlags) (oracle : ControlOracle) (pre : List Nat)
    (buf : Buffer) (s0 : TGamePadState) (hwf : wellFormed pre = true)
    (hno : HID_REPORT_ID ∉ itemTags pre) :
    ((USBGamePadDeviceGetReport F oracle pre buf s0).requests = [0] ∧
      (USBGamePadDeviceGetReport F oracle pre buf s0).decodes =
        (if 0 < (oracle [] 0).1 then 1 else 0)) ∧
    (∀ (item : Nat) (rest : List Nat) (arg : Nat) (r : List Nat),
      item &&& 0xFC = HID_REPORT_ID → fetchArg item rest = some (arg, r) →
      (0 < (oracle [] (shl32 arg 8)).1 →
        (USBGamePadDeviceGetReport F oracle (pre ++ item :: rest) buf s0).requests =
          [shl32 arg 8] ∧
        (USBGamePadDeviceGetReport F oracle (pre ++ item :: rest) buf s0).decodes = 1 ∧
        (USBGamePadDeviceGetReport F oracle (pre ++ item :: rest) buf s0).st =
          (USBGamePadDeviceDecodeReport F (pre ++ item :: rest)
            (oracle [] (shl32 arg 8)).2 s0).st) ∧
      (¬ 0 < (oracle [] (shl32 arg 8)).1 →
        USBGamePadDeviceGetReport F oracle (pre ++ item :: rest) buf s0 =
          getReportLoop F oracle (pre ++ item :: rest) r
            { requests := [shl32 arg 8], decodes := 0, buffer := (oracle [] (shl32 arg 8)).2,
              st := s0, truncated := false })) := by
  constructor
  · unfold USBGamePadDeviceGetReport
    have h := getReportLoop_skip F oracle pre pre [] hwf hno
      { requests := [], decodes := 0, buffer := buf, st := s0, truncated := false }
    rw [List.append_nil] at h
    rw [h]
    show (ite _ _ _ : ReportFetch).requests = [0] ∧ (ite _ _ _ : ReportFetch).decodes = _
    by_cases hs : 0 < (oracle [] 0).1
    · have hs2 : 0 < (controlMessage oracle 0
          { requests := [], decodes := 0, buffer := buf, st := s0, truncated := false }).1 := hs
      rw [if_pos hs2, if_pos hs]
      exact ⟨rfl, rfl⟩
    · have hs2 : ¬ 0 < (controlMessage oracle 0
          { requests := [], decodes := 0, buffer := buf, st := s0, truncated := false }).1 := hs
      rw [if_neg hs2, if_neg hs]
      exact ⟨rfl, rfl⟩
  · intro item rest arg r hitem hfetch
    unfold USBGamePadDeviceGetReport
    rw [getReportLoop_skip F oracle (pre ++ item :: rest) pre (item :: rest) hwf hno,
      getReportLoop_cons, hfetch]
    simp only [getReportStep, if_pos hitem]
    constructor
    · intro hs
      have hs2 : 0 < (controlMessage oracle (shl32 arg 8)
          { requests := [], decodes := 0, buffer := buf, st := s0, truncated := false }).1 := hs
      rw [if_pos hs2]
      exact ⟨rfl, rfl, rfl⟩
    · intro hs
      have hs2 : ¬ 0 < (controlMessage oracle (shl32 arg 8)
          { requests := [], decodes := 0, buffer := buf, st := s0, truncated := false }).1 := hs
      rw [if_neg hs2]
      rfl

theorem get_report_requests_witness :
    (wellFormed [0x05, 0x01, 0x09, 0x04, 0xA1, 0x01] = true ∧
      HID_REPORT_ID ∉ itemTags [0x05, 0x01, 0x09, 0x04, 0xA1, 0x01]) ∧
    ((USBGamePadDeviceGetReport flagBits succeedingOracle [0x05, 0x01, 0x09, 0x04, 0xA1, 0x01]
        [] zeroState).requests = [0] ∧
      (USBGamePadDeviceGetReport flagBits succeedingOracle [0x05, 0x01, 0x09, 0x04, 0xA1, 0x01]
        [] zeroState).decodes = (if 0 < (succeedingOracle [] 0).1 then 1 else 0)) ∧
    (USBGamePadDeviceGetReport flagBits succeedingOracle
        ([0x05, 0x01, 0x09, 0x04, 0xA1, 0x01] ++ 0x85 ::
          [0x01, 0x09, 0x30, 0x75, 0x08, 0x95, 0x01, 0x81, 0x02, 0xC0]) [] zeroState).requests =
      [shl32 1 8] :=
  ⟨by decide,
   (get_report_requests flagBits succeedingOracle [0x05, 0x01, 0x09, 0x04, 0xA1, 0x01] []
      zeroState (by decide) (by decide)).1,
   (((get_report_requests flagBits succeedingOracle [0x05, 0x01, 0x09, 0x04, 0xA1, 0x01] []
      zeroState (by decide) (by decide)).2 0x85
        [0x01, 0x09, 0x30, 0x75, 0x08, 0x95, 0x01, 0x81, 0x02, 0xC0] 1
        [0x09, 0x30, 0x75, 0x08, 0x95, 0x01, 0x81, 0x02, 0xC0] (by decide) (by decide)).1
      (by decide)).1⟩

end UsbGamePad
